import Mathlib

/-!
Verification of the CURP_Scraping repository's combinatorial scheduling core.

This file shallowly embeds the Python source under `src/` into Lean:

* `src/combination_generator.py` — the index/combination bijection
  (`CombinationGenerator`, `_generate_year_month_pairs`,
  `get_combination_by_index`, `get_index_of_combination`,
  `generate_combinations`);
* `src/result_validator.py` — the CURP validator (`CURP_REGEX`,
  `is_valid_curp`, `extract_curp_from_text`, `extract_date_from_curp`,
  `extract_state_code_from_curp`, `validate_result`);
* `src/multiprocess_worker.py` / `src/parallel_worker.py` — the task
  queueing, retry, early-stop and shared-counter logic of the worker pool.

Machine integers are modelled sparingly: `day`, `month`, `year` and list
indices are `Nat`, the (possibly negative) index argument of
`get_combination_by_index` is `Int`.  Python `range(a, b)` is `pyRange a b`,
`list.index` is `pyIndex`.  Strings are ASCII in all inputs of interest;
Python's `str.upper`/`str.lower`/`str.strip` are modelled on the ASCII
subset, matching `Char.toUpper`/`Char.toLower`.
-/

/-! ## Python list and range primitives -/

/-- Python `range(a, b)` as a list: `[a, a+1, ..., b-1]` (empty if `b ≤ a`). -/
def pyRange (a b : Nat) : List Nat :=
  (List.range (b - a)).map (fun i => a + i)

/-- Python `list.index(x)`, returning `none` where Python raises `ValueError`
(the source wraps the relevant call in `try ... except ValueError`). -/
def pyIndex {α : Type} [DecidableEq α] : List α → α → Option Nat
  | [], _ => none
  | x :: xs, a => if x = a then some 0 else (pyIndex xs a).map (· + 1)

theorem pyRange_length (a b : Nat) : (pyRange a b).length = b - a := by
  simp [pyRange]

theorem pyRange_getElem (a b i : Nat) (h : i < (pyRange a b).length) :
    (pyRange a b)[i] = a + i := by
  simp [pyRange]

theorem pyRange_getElem? (a b i : Nat) (h : i < b - a) :
    (pyRange a b)[i]? = some (a + i) := by
  unfold pyRange
  rw [List.getElem?_map, List.getElem?_range h]
  rfl

theorem mem_pyRange {a b x : Nat} : x ∈ pyRange a b ↔ a ≤ x ∧ x < b := by
  simp only [pyRange, List.mem_map, List.mem_range]
  constructor
  · rintro ⟨i, hi, rfl⟩; omega
  · rintro ⟨h1, h2⟩; exact ⟨x - a, by omega, by omega⟩

theorem pyRange_nodup (a b : Nat) : (pyRange a b).Nodup := by
  exact (List.nodup_range _).map (fun x y h => by omega)

theorem pyRange_eq_cons {a b : Nat} (h : a < b) :
    pyRange a b = a :: pyRange (a + 1) b := by
  simp only [pyRange]
  have hb : b - a = (b - (a + 1)) + 1 := by omega
  rw [hb, List.range_succ_eq_map, List.map_cons, List.map_map]
  simp [Function.comp_def, Nat.add_comm, Nat.add_assoc, Nat.add_left_comm]

theorem pyIndex_eq_none {α : Type} [DecidableEq α] {l : List α} {a : α} :
    pyIndex l a = none ↔ a ∉ l := by
  induction l with
  | nil => simp [pyIndex]
  | cons x xs ih =>
    by_cases hx : x = a
    · simp [pyIndex, hx]
    · simp [pyIndex, hx, ih, Ne.symm hx]

theorem pyIndex_isSome_of_mem {α : Type} [DecidableEq α] {l : List α} {a : α}
    (h : a ∈ l) : ∃ i, pyIndex l a = some i := by
  cases he : pyIndex l a with
  | none => exact absurd h (pyIndex_eq_none.mp he)
  | some i => exact ⟨i, rfl⟩

theorem pyIndex_lt_length {α : Type} [DecidableEq α] {l : List α} {a : α} {i : Nat}
    (h : pyIndex l a = some i) : i < l.length := by
  induction l generalizing i with
  | nil => simp [pyIndex] at h
  | cons x xs ih =>
    by_cases hx : x = a
    · simp [pyIndex, hx] at h
      simp only [List.length_cons]
      omega
    · simp only [pyIndex, hx, if_false, Option.map_eq_some'] at h
      obtain ⟨j, hj, rfl⟩ := h
      have := ih hj
      simp only [List.length_cons]
      omega

theorem getElem_pyIndex {α : Type} [DecidableEq α] {l : List α} {a : α} {i : Nat}
    (h : pyIndex l a = some i) (hi : i < l.length) : l[i] = a := by
  induction l generalizing i with
  | nil => simp [pyIndex] at h
  | cons x xs ih =>
    by_cases hx : x = a
    · simp [pyIndex, hx] at h
      subst h; simpa using hx
    · simp only [pyIndex, hx, if_false, Option.map_eq_some'] at h
      obtain ⟨j, hj, rfl⟩ := h
      simpa using ih hj (by simpa using hi)

theorem pyIndex_getElem {α : Type} [DecidableEq α] {l : List α} (hnd : l.Nodup)
    (i : Nat) (hi : i < l.length) : pyIndex l (l[i]) = some i := by
  induction l generalizing i with
  | nil => simp at hi
  | cons x xs ih =>
    rcases hnd with _ | ⟨hx, hnd⟩
    cases i with
    | zero => simp [pyIndex]
    | succ j =>
      have hj : j < xs.length := by simpa using hi
      have hne : x ≠ xs[j] := by
        intro he
        exact (hx _ (List.getElem_mem hj)) he
      simp [pyIndex, hne, ih hnd j hj]

/-! ## `src/combination_generator.py` — data and constructor -/

/-- The module-level `MEXICAN_STATES` list (32 entries). -/
def MEXICAN_STATES : List String := [
  "Aguascalientes",
  "Baja California",
  "Baja California Sur",
  "Campeche",
  "Chiapas",
  "Chihuahua",
  "Coahuila",
  "Colima",
  "Durango",
  "Guanajuato",
  "Guerrero",
  "Hidalgo",
  "Jalisco",
  "Michoacán",
  "Morelos",
  "Nayarit",
  "Nuevo León",
  "Oaxaca",
  "Puebla",
  "Querétaro",
  "Quintana Roo",
  "San Luis Potosí",
  "Sinaloa",
  "Sonora",
  "Tabasco",
  "Tamaulipas",
  "Tlaxcala",
  "Veracruz",
  "Yucatán",
  "Zacatecas",
  "Ciudad de México",
  "Nacido en el extranjero"]

/-- The month list generated for one `year` of the loop in
`_generate_year_month_pairs`.  The four `if`/`elif` branches of the Python
function run the same year loop and differ only in this per-year month
range, so they are factored through this function; the branch order of the
Python conditionals (`year == start_year` tested before `year == end_year`)
is preserved exactly. -/
def monthsForYear (sy : Nat) (sm : Option Nat) (ey : Nat) (em : Option Nat)
    (y : Nat) : List Nat :=
  match sm, em with
  | some smv, some emv =>
      if y = sy then pyRange smv 13
      else if y = ey then pyRange 1 (emv + 1)
      else pyRange 1 13
  | some smv, none =>
      if y = sy then pyRange smv 13 else pyRange 1 13
  | none, some emv =>
      if y = ey then pyRange 1 (emv + 1) else pyRange 1 13
  | none, none => pyRange 1 13

/-- `CombinationGenerator._generate_year_month_pairs`: loops
`for year in range(start_year, end_year + 1)` and appends `(year, month)`
for each month of `monthsForYear`. -/
def generateYearMonthPairs (sy : Nat) (sm : Option Nat) (ey : Nat)
    (em : Option Nat) : List (Nat × Nat) :=
  (pyRange sy (ey + 1)).flatMap
    (fun y => (monthsForYear sy sm ey em y).map (fun m => (y, m)))

/-- The state of a constructed `CombinationGenerator`: its `self.states` and
`self.year_month_pairs` fields (`self.total_combinations` is derived). -/
structure CombinationGenerator where
  states : List String
  year_month_pairs : List (Nat × Nat)

/-- `CombinationGenerator.__init__`: `start`/`end` are a year plus optional
month (the result of `_parse_year_month`); `self.states = MEXICAN_STATES`. -/
def CombinationGenerator.ofRange (sy : Nat) (sm : Option Nat) (ey : Nat)
    (em : Option Nat) : CombinationGenerator :=
  ⟨MEXICAN_STATES, generateYearMonthPairs sy sm ey em⟩

/-- `self.total_combinations = days * states_count * year_month_count`
with `days = 31`. -/
def CombinationGenerator.total_combinations (g : CombinationGenerator) : Nat :=
  31 * g.states.length * g.year_month_pairs.length

/-- `CombinationGenerator.get_combination_by_index` (zero-based `index`,
possibly negative, hence `Int`).  Returns `(day, month, state, year)` or
`None` when the index is out of range. -/
def get_combination_by_index (g : CombinationGenerator) (index : Int) :
    Option (Nat × Nat × String × Nat) :=
  if index < 0 ∨ (g.total_combinations : Int) ≤ index then none
  else
    let i := index.toNat
    let sc := g.states.length
    let yc := g.year_month_pairs.length
    let day_idx := i / (sc * yc)
    let remaining := i % (sc * yc)
    let state_idx := remaining / yc
    let ym_idx := remaining % yc
    match (pyRange 1 32)[day_idx]?, g.states[state_idx]?,
        g.year_month_pairs[ym_idx]? with
    | some day, some st, some ym => some (day, ym.2, st, ym.1)
    | _, _, _ => none

/-- `CombinationGenerator.get_index_of_combination`.  `days.index(day)` and
`self.states.index(state)` are `pyIndex` (both are guarded by the preceding
range/membership checks); `self.year_month_pairs.index((year, month))` is
wrapped in `try/except ValueError` in the source, i.e. `pyIndex` with the
`none` case returned as `None`. -/
def get_index_of_combination (g : CombinationGenerator) (day month : Nat)
    (state : String) (year : Nat) : Option Nat :=
  if day < 1 ∨ 31 < day then none
  else if month < 1 ∨ 12 < month then none
  else if state ∉ g.states then none
  else
    match pyIndex g.year_month_pairs (year, month) with
    | none => none
    | some ym_idx =>
      match pyIndex (pyRange 1 32) day, pyIndex g.states state with
      | some day_idx, some state_idx =>
          some (day_idx * g.states.length * g.year_month_pairs.length +
            state_idx * g.year_month_pairs.length + ym_idx)
      | _, _ => none

/-- `CombinationGenerator.generate_combinations`: yields
`(day, month, state, year)` over `product(days, self.states,
self.year_month_pairs)` — day-major, then state, then year-month. -/
def generate_combinations (g : CombinationGenerator) :
    List (Nat × Nat × String × Nat) :=
  (pyRange 1 32).flatMap (fun day =>
    g.states.flatMap (fun state =>
      g.year_month_pairs.map (fun ym => (day, ym.2, state, ym.1))))

/-! ## Generic indexing lemmas for uniform nested loops -/

theorem flatMap_uniform_length {α β : Type} (as : List α) (f : α → List β)
    (L : Nat) (hL : ∀ a ∈ as, (f a).length = L) :
    (as.flatMap f).length = as.length * L := by
  induction as with
  | nil => simp
  | cons a as ih =>
    have hfa : (f a).length = L := hL a (List.mem_cons_self a as)
    have hrest : ∀ x ∈ as, (f x).length = L :=
      fun x hx => hL x (List.mem_cons_of_mem a hx)
    simp only [List.flatMap_cons, List.length_append, hfa, ih hrest,
      List.length_cons]
    ring

theorem flatMap_uniform_getElem? {α β : Type} (as : List α) (f : α → List β)
    (L : Nat) (hL : ∀ a ∈ as, (f a).length = L) (i : Nat)
    (hi : i < as.length * L) :
    (as.flatMap f)[i]? = as[i / L]?.bind (fun a => (f a)[i % L]?) := by
  induction as generalizing i with
  | nil => simp at hi
  | cons a as ih =>
    have hfa : (f a).length = L := hL a (List.mem_cons_self a as)
    have hrest : ∀ x ∈ as, (f x).length = L :=
      fun x hx => hL x (List.mem_cons_of_mem a hx)
    rcases Nat.eq_zero_or_pos L with hL0 | hLpos
    · subst hL0; simp at hi
    by_cases hiL : i < L
    · rw [List.flatMap_cons,
        List.getElem?_append_left (by rw [hfa]; exact hiL),
        Nat.div_eq_of_lt hiL, Nat.mod_eq_of_lt hiL]
      simp
    · push_neg at hiL
      have hmul : (as.length + 1) * L = as.length * L + L := by ring
      have hi' : i - L < as.length * L := by
        simp only [List.length_cons] at hi; omega
      rw [List.flatMap_cons,
        List.getElem?_append_right (by rw [hfa]; exact hiL), hfa,
        Nat.div_eq_sub_div hLpos hiL, Nat.mod_eq_sub_mod hiL]
      rw [ih hrest (i - L) hi']
      simp

/-! ## Structural facts about the generated year-month pairs -/

theorem mem_monthsForYear {sy ey y m : Nat} {sm em : Option Nat}
    (hsm : ∀ v, sm = some v → 1 ≤ v) (hem : ∀ v, em = some v → v ≤ 12)
    (h : m ∈ monthsForYear sy sm ey em y) : 1 ≤ m ∧ m ≤ 12 := by
  rcases sm with _ | smv <;> rcases em with _ | emv <;>
    simp only [monthsForYear] at h
  · rw [mem_pyRange] at h; omega
  · have := hem emv rfl
    split at h <;> rw [mem_pyRange] at h <;> omega
  · have := hsm smv rfl
    split at h <;> rw [mem_pyRange] at h <;> omega
  · have h1 := hsm smv rfl
    have h2 := hem emv rfl
    split at h
    · rw [mem_pyRange] at h; omega
    split at h <;> rw [mem_pyRange] at h <;> omega

theorem monthsForYear_nodup (sy ey y : Nat) (sm em : Option Nat) :
    (monthsForYear sy sm ey em y).Nodup := by
  rcases sm with _ | smv <;> rcases em with _ | emv <;>
    simp only [monthsForYear] <;> try split
  all_goals first
    | exact pyRange_nodup _ _
    | (split <;> exact pyRange_nodup _ _)

theorem generateYearMonthPairs_nodup (sy ey : Nat) (sm em : Option Nat) :
    (generateYearMonthPairs sy sm ey em).Nodup := by
  unfold generateYearMonthPairs
  rw [List.nodup_flatMap]
  constructor
  · intro y _
    exact (monthsForYear_nodup sy ey y sm em).map
      (fun m m' h => by simpa using h)
  · refine (pyRange_nodup sy (ey + 1)).imp ?_
    intro y y' hne
    simp only [Function.onFun]
    rw [List.disjoint_left]
    rintro ⟨a, b⟩ ha hb
    simp only [List.mem_map] at ha hb
    obtain ⟨m, _, hm⟩ := ha
    obtain ⟨m', _, hm'⟩ := hb
    cases hm; cases hm'
    exact hne rfl

theorem mem_generateYearMonthPairs_month {sy ey : Nat} {sm em : Option Nat}
    (hsm : ∀ v, sm = some v → 1 ≤ v) (hem : ∀ v, em = some v → v ≤ 12)
    {p : Nat × Nat} (h : p ∈ generateYearMonthPairs sy sm ey em) :
    1 ≤ p.2 ∧ p.2 ≤ 12 := by
  unfold generateYearMonthPairs at h
  rw [List.mem_flatMap] at h
  obtain ⟨y, _, hp⟩ := h
  simp only [List.mem_map] at hp
  obtain ⟨m, hm, rfl⟩ := hp
  exact mem_monthsForYear hsm hem hm

theorem mexican_states_nodup : MEXICAN_STATES.Nodup := by decide

/-! ## Decode/encode formulas for the index bijection -/

theorem total_eq (g : CombinationGenerator) :
    g.total_combinations =
      31 * (g.states.length * g.year_month_pairs.length) := by
  unfold CombinationGenerator.total_combinations; ring

theorem decode_formula (g : CombinationGenerator) (i : Nat)
    (hi : i < g.total_combinations) :
    get_combination_by_index g (i : Int) = some
      (1 + i / (g.states.length * g.year_month_pairs.length),
       (g.year_month_pairs.getD
          (i % (g.states.length * g.year_month_pairs.length) %
            g.year_month_pairs.length) (0, 0)).2,
       g.states.getD
          (i % (g.states.length * g.year_month_pairs.length) /
            g.year_month_pairs.length) "",
       (g.year_month_pairs.getD
          (i % (g.states.length * g.year_month_pairs.length) %
            g.year_month_pairs.length) (0, 0)).1) := by
  have h31 : i < 31 * (g.states.length * g.year_month_pairs.length) := by
    rw [← total_eq]; exact hi
  rcases Nat.eq_zero_or_pos (g.states.length * g.year_month_pairs.length)
    with hSY | hSY
  · rw [hSY] at h31; simp at h31
  have hY : 0 < g.year_month_pairs.length := by
    rcases Nat.eq_zero_or_pos g.year_month_pairs.length with h | h
    · rw [h] at hSY; simp at hSY
    · exact h
  have hdi : i / (g.states.length * g.year_month_pairs.length) < 31 :=
    (Nat.div_lt_iff_lt_mul hSY).mpr h31
  have hr : i % (g.states.length * g.year_month_pairs.length) <
      g.states.length * g.year_month_pairs.length := Nat.mod_lt _ hSY
  have hsi : i % (g.states.length * g.year_month_pairs.length) /
      g.year_month_pairs.length < g.states.length :=
    (Nat.div_lt_iff_lt_mul hY).mpr hr
  have hym : i % (g.states.length * g.year_month_pairs.length) %
      g.year_month_pairs.length < g.year_month_pairs.length := Nat.mod_lt _ hY
  unfold get_combination_by_index
  rw [if_neg (by omega)]
  simp only [Int.toNat_natCast]
  rw [pyRange_getElem? 1 32 _ (by omega), List.getElem?_eq_getElem hsi,
    List.getElem?_eq_getElem hym,
    List.getD_eq_getElem _ _ hsi, List.getD_eq_getElem _ _ hym]

theorem pyIndex_pyRange {a b v : Nat} (h1 : a ≤ v) (h2 : v < b) :
    pyIndex (pyRange a b) v = some (v - a) := by
  have hlt : v - a < (pyRange a b).length := by rw [pyRange_length]; omega
  have hpi := pyIndex_getElem (pyRange_nodup a b) (v - a) hlt
  have hge := pyRange_getElem a b (v - a) (by omega)
  have hv : a + (v - a) = v := by omega
  rw [hge, hv] at hpi
  exact hpi

theorem encode_formula (g : CombinationGenerator) (d m : Nat) (st : String)
    (y : Nat) (h1 : 1 ≤ d) (h2 : d ≤ 31) (hm1 : 1 ≤ m) (hm2 : m ≤ 12)
    (hst : st ∈ g.states) (hym : (y, m) ∈ g.year_month_pairs) :
    ∃ si ymi, pyIndex g.states st = some si ∧
      pyIndex g.year_month_pairs (y, m) = some ymi ∧
      get_index_of_combination g d m st y =
        some ((d - 1) * g.states.length * g.year_month_pairs.length +
          si * g.year_month_pairs.length + ymi) := by
  obtain ⟨si, hsi⟩ := pyIndex_isSome_of_mem hst
  obtain ⟨ymi, hymi⟩ := pyIndex_isSome_of_mem hym
  refine ⟨si, ymi, hsi, hymi, ?_⟩
  unfold get_index_of_combination
  rw [if_neg (by omega), if_neg (by omega), if_neg (fun hc => hc hst), hymi,
    pyIndex_pyRange h1 (by omega), hsi]

theorem combination_bijection_master (g : CombinationGenerator)
    (hnd_st : g.states.Nodup) (hnd_ym : g.year_month_pairs.Nodup)
    (hm : ∀ p ∈ g.year_month_pairs, 1 ≤ p.2 ∧ p.2 ≤ 12) :
    (∀ i : Nat, i < g.total_combinations →
      ∃ d m st y, get_combination_by_index g (i : Int) = some (d, m, st, y) ∧
        get_index_of_combination g d m st y = some i) ∧
    (∀ d m st y, 1 ≤ d → d ≤ 31 → st ∈ g.states →
      (y, m) ∈ g.year_month_pairs →
      ∃ i : Nat, get_index_of_combination g d m st y = some i ∧
        get_combination_by_index g (i : Int) = some (d, m, st, y)) ∧
    (∀ i : Nat, i < g.total_combinations →
      (generate_combinations g)[i]? = get_combination_by_index g (i : Int)) := by
  have hSYpos : ∀ i : Nat, i < g.total_combinations →
      0 < g.states.length * g.year_month_pairs.length := by
    intro i hi
    rcases Nat.eq_zero_or_pos (g.states.length * g.year_month_pairs.length)
      with h | h
    · rw [total_eq, h] at hi; simp at hi
    · exact h
  refine ⟨?_, ?_, ?_⟩
  · -- decode then encode: indexOf (at i) = i
    intro i hi
    have hSY := hSYpos i hi
    have hY : 0 < g.year_month_pairs.length := by
      rcases Nat.eq_zero_or_pos g.year_month_pairs.length with h | h
      · rw [h] at hSY; simp at hSY
      · exact h
    have h31 : i < 31 * (g.states.length * g.year_month_pairs.length) := by
      rw [← total_eq]; exact hi
    have hdi : i / (g.states.length * g.year_month_pairs.length) < 31 :=
      (Nat.div_lt_iff_lt_mul hSY).mpr h31
    have hr : i % (g.states.length * g.year_month_pairs.length) <
        g.states.length * g.year_month_pairs.length := Nat.mod_lt _ hSY
    have hsi : i % (g.states.length * g.year_month_pairs.length) /
        g.year_month_pairs.length < g.states.length :=
      (Nat.div_lt_iff_lt_mul hY).mpr hr
    have hym : i % (g.states.length * g.year_month_pairs.length) %
        g.year_month_pairs.length < g.year_month_pairs.length := Nat.mod_lt _ hY
    have hdec := decode_formula g i hi
    rw [List.getD_eq_getElem _ _ hsi, List.getD_eq_getElem _ _ hym] at hdec
    refine ⟨_, _, _, _, hdec, ?_⟩
    have hp_mem := List.getElem_mem hym
    have hmonth := hm _ hp_mem
    have hst_mem := List.getElem_mem hsi
    have henc := encode_formula g
      (1 + i / (g.states.length * g.year_month_pairs.length))
      ((g.year_month_pairs[i % (g.states.length * g.year_month_pairs.length) %
          g.year_month_pairs.length]).2)
      (g.states[i % (g.states.length * g.year_month_pairs.length) /
          g.year_month_pairs.length])
      ((g.year_month_pairs[i % (g.states.length * g.year_month_pairs.length) %
          g.year_month_pairs.length]).1)
      (Nat.le_add_right 1 _) (by rw [Nat.add_comm]; exact hdi)
      hmonth.1 hmonth.2 hst_mem (by rw [Prod.mk.eta]; exact hp_mem)
    obtain ⟨si, ymi, hsi_eq, hymi_eq, henc_eq⟩ := henc
    have hsi_val : pyIndex g.states
        (g.states[i % (g.states.length * g.year_month_pairs.length) /
          g.year_month_pairs.length]) = some
        (i % (g.states.length * g.year_month_pairs.length) /
          g.year_month_pairs.length) := pyIndex_getElem hnd_st _ hsi
    have hymi_val : pyIndex g.year_month_pairs
        (g.year_month_pairs[i % (g.states.length * g.year_month_pairs.length) %
          g.year_month_pairs.length]) = some
        (i % (g.states.length * g.year_month_pairs.length) %
          g.year_month_pairs.length) := pyIndex_getElem hnd_ym _ hym
    rw [Prod.mk.eta] at hymi_eq
    rw [hsi_val] at hsi_eq
    rw [hymi_val] at hymi_eq
    have hsi' := Option.some.inj hsi_eq
    have hymi' := Option.some.inj hymi_eq
    subst hsi'; subst hymi'
    rw [henc_eq]
    congr 1
    have hd1 : 1 + i / (g.states.length * g.year_month_pairs.length) - 1 =
        i / (g.states.length * g.year_month_pairs.length) :=
      Nat.add_sub_cancel_left 1 _
    have e1 : (1 + i / (g.states.length * g.year_month_pairs.length) - 1) *
        g.states.length * g.year_month_pairs.length =
        (g.states.length * g.year_month_pairs.length) *
          (i / (g.states.length * g.year_month_pairs.length)) := by
      rw [hd1]; ring
    have e2 := Nat.div_add_mod i (g.states.length * g.year_month_pairs.length)
    have e3 := Nat.div_add_mod
      (i % (g.states.length * g.year_month_pairs.length))
      g.year_month_pairs.length
    have e4 : (i % (g.states.length * g.year_month_pairs.length) /
        g.year_month_pairs.length) * g.year_month_pairs.length =
        g.year_month_pairs.length *
          (i % (g.states.length * g.year_month_pairs.length) /
            g.year_month_pairs.length) := by ring
    rw [e1, e4, Nat.add_assoc, e3, e2]
  · -- encode then decode: at (indexOf c) = c
    intro d m st y h1 h2 hst hym
    have hmonth := hm _ hym
    obtain ⟨si, ymi, hsi_eq, hymi_eq, henc_eq⟩ :=
      encode_formula g d m st y h1 h2 hmonth.1 hmonth.2 hst hym
    have hS : 0 < g.states.length := List.length_pos_of_mem hst
    have hY : 0 < g.year_month_pairs.length := List.length_pos_of_mem hym
    have hsi_lt : si < g.states.length := pyIndex_lt_length hsi_eq
    have hymi_lt : ymi < g.year_month_pairs.length := pyIndex_lt_length hymi_eq
    refine ⟨_, henc_eq, ?_⟩
    set S := g.states.length with hSdef
    set Y := g.year_month_pairs.length with hYdef
    have eassoc : (d - 1) * S * Y = (S * Y) * (d - 1) := by ring
    have e30 : (S * Y) * (d - 1) ≤ (S * Y) * 30 :=
      Nat.mul_le_mul_left _ (by omega)
    have esi : si * Y ≤ (S - 1) * Y := Nat.mul_le_mul_right _ (by omega)
    have eS1 : (S - 1) * Y + Y = S * Y := by
      have hS1 : S - 1 + 1 = S := by omega
      calc (S - 1) * Y + Y = ((S - 1) + 1) * Y := by ring
        _ = S * Y := by rw [hS1]
    have e31 : 31 * (S * Y) = (S * Y) * 30 + S * Y := by ring
    have hr_lt : si * Y + ymi < S * Y := by omega
    have hi : (d - 1) * S * Y + si * Y + ymi < g.total_combinations := by
      rw [total_eq g, ← hSdef, ← hYdef]
      omega
    have hdec := decode_formula g ((d - 1) * S * Y + si * Y + ymi) hi
    have e_i : (d - 1) * S * Y + si * Y + ymi =
        (si * Y + ymi) + (S * Y) * (d - 1) := by ring
    have hdiv : ((d - 1) * S * Y + si * Y + ymi) / (S * Y) = d - 1 := by
      rw [e_i, Nat.add_mul_div_left _ _ (by omega : 0 < S * Y),
        Nat.div_eq_of_lt hr_lt, Nat.zero_add]
    have hmod : ((d - 1) * S * Y + si * Y + ymi) % (S * Y) = si * Y + ymi := by
      rw [e_i, Nat.add_mul_mod_self_left, Nat.mod_eq_of_lt hr_lt]
    have e_r : si * Y + ymi = ymi + Y * si := by ring
    have hdiv2 : (si * Y + ymi) / Y = si := by
      rw [e_r, Nat.add_mul_div_left _ _ hY, Nat.div_eq_of_lt hymi_lt,
        Nat.zero_add]
    have hmod2 : (si * Y + ymi) % Y = ymi := by
      rw [e_r, Nat.add_mul_mod_self_left, Nat.mod_eq_of_lt hymi_lt]
    rw [hdiv, hmod, hdiv2, hmod2] at hdec
    rw [List.getD_eq_getElem _ _ hsi_lt, List.getD_eq_getElem _ _ hymi_lt]
      at hdec
    have hst_val : g.states[si] = st := getElem_pyIndex hsi_eq hsi_lt
    have hym_val : g.year_month_pairs[ymi] = (y, m) :=
      getElem_pyIndex hymi_eq hymi_lt
    rw [hst_val, hym_val] at hdec
    have hd1 : 1 + (d - 1) = d := by omega
    rw [hd1] at hdec
    exact hdec
  · -- enumeration order agrees with the index decoding (day-major order)
    intro i hi
    have hSY := hSYpos i hi
    have hY : 0 < g.year_month_pairs.length := by
      rcases Nat.eq_zero_or_pos g.year_month_pairs.length with h | h
      · rw [h] at hSY; simp at hSY
      · exact h
    have h31 : i < 31 * (g.states.length * g.year_month_pairs.length) := by
      rw [← total_eq]; exact hi
    have hdi : i / (g.states.length * g.year_month_pairs.length) < 31 :=
      (Nat.div_lt_iff_lt_mul hSY).mpr h31
    have hr : i % (g.states.length * g.year_month_pairs.length) <
        g.states.length * g.year_month_pairs.length := Nat.mod_lt _ hSY
    have hsi : i % (g.states.length * g.year_month_pairs.length) /
        g.year_month_pairs.length < g.states.length :=
      (Nat.div_lt_iff_lt_mul hY).mpr hr
    have hym : i % (g.states.length * g.year_month_pairs.length) %
        g.year_month_pairs.length < g.year_month_pairs.length := Nat.mod_lt _ hY
    unfold generate_combinations
    have hinner_len : ∀ day ∈ pyRange 1 32,
        (g.states.flatMap (fun state =>
          g.year_month_pairs.map (fun ym => (day, ym.2, state, ym.1)))).length =
          g.states.length * g.year_month_pairs.length := by
      intro day _
      exact flatMap_uniform_length _ _ _ (fun st _ => by simp)
    rw [flatMap_uniform_getElem? _ _
        (g.states.length * g.year_month_pairs.length) hinner_len i
        (by rw [pyRange_length]; simpa using h31)]
    rw [pyRange_getElem? 1 32 _ (by omega)]
    simp only [Option.some_bind]
    rw [flatMap_uniform_getElem? _ _ g.year_month_pairs.length
        (fun st _ => by simp) _ hr]
    rw [List.getElem?_eq_getElem hsi]
    simp only [Option.some_bind]
    rw [List.getElem?_map, List.getElem?_eq_getElem hym]
    rw [decode_formula g i hi,
      List.getD_eq_getElem _ _ hsi, List.getD_eq_getElem _ _ hym]
    rfl

/-! ## Claims C1, C2, C7 -/

/-- C1: for every configured `CombinationGenerator` (any start/end year with
optional start/end months in valid calendar range), `get_index_of_combination`
applied to `get_combination_by_index i` returns `i` for every
`i ∈ [0, total_combinations)`; `get_combination_by_index` applied to
`get_index_of_combination c` returns `c` for every valid combination `c`
(day in `1..31`, state in the region list, `(year, month)` among the
configured year-month pairs); and the encoding order is day-major, then
region, then year-month: the `i`-th element of the `generate_combinations`
enumeration is exactly `get_combination_by_index i`. -/
theorem c1_bijection (sy ey : Nat) (sm em : Option Nat)
    (g : CombinationGenerator)
    (hg : g = CombinationGenerator.ofRange sy sm ey em)
    (hsm : ∀ v, sm = some v → 1 ≤ v) (hem : ∀ v, em = some v → v ≤ 12) :
    (∀ i : Nat, i < g.total_combinations →
      ∃ d m st y, get_combination_by_index g (i : Int) = some (d, m, st, y) ∧
        get_index_of_combination g d m st y = some i) ∧
    (∀ d m st y, 1 ≤ d → d ≤ 31 → st ∈ g.states →
      (y, m) ∈ g.year_month_pairs →
      ∃ i : Nat, get_index_of_combination g d m st y = some i ∧
        get_combination_by_index g (i : Int) = some (d, m, st, y)) ∧
    (∀ i : Nat, i < g.total_combinations →
      (generate_combinations g)[i]? = get_combination_by_index g (i : Int)) := by
  subst hg
  exact combination_bijection_master _ mexican_states_nodup
    (generateYearMonthPairs_nodup sy ey sm em)
    (fun p hp => mem_generateYearMonthPairs_month hsm hem hp)

/-- Witness for C1 at the concrete configuration start = 1990-11,
end = 1990-12 (the single-year partial range named by the spec). -/
theorem c1_bijection_witness :
    (∀ v : Nat, (some 11 : Option Nat) = some v → 1 ≤ v) ∧
    (∀ v : Nat, (some 12 : Option Nat) = some v → v ≤ 12) ∧
    ((∀ i : Nat,
        i < (CombinationGenerator.ofRange 1990 (some 11) 1990
          (some 12)).total_combinations →
      ∃ d m st y, get_combination_by_index
          (CombinationGenerator.ofRange 1990 (some 11) 1990 (some 12))
          (i : Int) = some (d, m, st, y) ∧
        get_index_of_combination
          (CombinationGenerator.ofRange 1990 (some 11) 1990 (some 12))
          d m st y = some i) ∧
    (∀ d m st y, 1 ≤ d → d ≤ 31 →
      st ∈ (CombinationGenerator.ofRange 1990 (some 11) 1990
        (some 12)).states →
      (y, m) ∈ (CombinationGenerator.ofRange 1990 (some 11) 1990
        (some 12)).year_month_pairs →
      ∃ i : Nat, get_index_of_combination
          (CombinationGenerator.ofRange 1990 (some 11) 1990 (some 12))
          d m st y = some i ∧
        get_combination_by_index
          (CombinationGenerator.ofRange 1990 (some 11) 1990 (some 12))
          (i : Int) = some (d, m, st, y)) ∧
    (∀ i : Nat,
        i < (CombinationGenerator.ofRange 1990 (some 11) 1990
          (some 12)).total_combinations →
      (generate_combinations
          (CombinationGenerator.ofRange 1990 (some 11) 1990 (some 12)))[i]? =
        get_combination_by_index
          (CombinationGenerator.ofRange 1990 (some 11) 1990 (some 12))
          (i : Int))) :=
  ⟨fun v hv => by cases hv; decide, fun v hv => by cases hv; decide,
   c1_bijection 1990 1990 (some 11) (some 12) _ rfl
     (fun v hv => by cases hv; decide) (fun v hv => by cases hv; decide)⟩

/-- C2 (code bug): `_generate_year_month_pairs` tests `year == start_year`
before `year == end_year`, so in a range confined to a single year the end
month bound is ignored: start = 1990-03, end = 1990-05 yields the ten months
1990-03 .. 1990-12 instead of the three months 1990-03 .. 1990-05.  The
spec's own example (start = 1990-11, end = 1990-12) happens to agree with
the code only because its end month is 12; its total is 31 × 32 × 2. -/
theorem c2_year_month_pairs_eval :
    generateYearMonthPairs 1990 (some 3) 1990 (some 5) =
      [(1990, 3), (1990, 4), (1990, 5), (1990, 6), (1990, 7), (1990, 8),
       (1990, 9), (1990, 10), (1990, 11), (1990, 12)] ∧
    generateYearMonthPairs 1990 (some 11) 1990 (some 12) =
      [(1990, 11), (1990, 12)] ∧
    (CombinationGenerator.ofRange 1990 (some 11) 1990
      (some 12)).total_combinations = 31 * 32 * 2 := by
  refine ⟨by decide, by decide, by decide⟩

/-- C7: `get_combination_by_index` returns `None` for every index outside
`[0, total_combinations)` (in particular `-1` and `total_combinations`),
and `get_index_of_combination` returns `None` for every combination outside
the configured space (day not in `1..31`, month not in `1..12`, state not in
the state list, or `(year, month)` not among the configured pairs). -/
theorem c7_out_of_range (g : CombinationGenerator) :
    (∀ index : Int, index < 0 ∨ (g.total_combinations : Int) ≤ index →
      get_combination_by_index g index = none) ∧
    (∀ day month : Nat, ∀ state : String, ∀ year : Nat,
      (day < 1 ∨ 31 < day) ∨ (month < 1 ∨ 12 < month) ∨ state ∉ g.states ∨
        (year, month) ∉ g.year_month_pairs →
      get_index_of_combination g day month state year = none) := by
  constructor
  · intro index h
    unfold get_combination_by_index
    rw [if_pos h]
  · intro day month state year h
    unfold get_index_of_combination
    by_cases h1 : day < 1 ∨ 31 < day
    · rw [if_pos h1]
    rw [if_neg h1]
    by_cases h2 : month < 1 ∨ 12 < month
    · rw [if_pos h2]
    rw [if_neg h2]
    by_cases h3 : state ∉ g.states
    · rw [if_pos h3]
    rw [if_neg h3]
    have h4 : (year, month) ∉ g.year_month_pairs := by tauto
    rw [pyIndex_eq_none.mpr h4]

/-- Witness for C7: the generator for 1990..1991 rejects index `-1`, index
`total_combinations`, and the invalid combination day = 32. -/
theorem c7_out_of_range_witness :
    (((-1 : Int) < 0 ∨ ((CombinationGenerator.ofRange 1990 none 1991
        none).total_combinations : Int) ≤ (-1 : Int)) ∧
      get_combination_by_index
        (CombinationGenerator.ofRange 1990 none 1991 none) (-1) = none) ∧
    get_combination_by_index (CombinationGenerator.ofRange 1990 none 1991 none)
      ((CombinationGenerator.ofRange 1990 none 1991
        none).total_combinations : Int) = none ∧
    get_index_of_combination (CombinationGenerator.ofRange 1990 none 1991 none)
      32 1 "Jalisco" 1990 = none :=
  ⟨⟨Or.inl (by decide),
    (c7_out_of_range _).1 (-1) (Or.inl (by decide))⟩,
   (c7_out_of_range _).1 _ (Or.inr (le_refl _)),
   (c7_out_of_range _).2 32 1 "Jalisco" 1990 (Or.inl (Or.inr (by decide)))⟩

/-- Sanity check: concrete round trip in the 1990-11..1990-12 configuration.
Index 100 decodes as day 2, state "Puebla", year-month (1990, 11)
(day-major: 100 = 1·(32·2) + 18·2 + 0) and encodes back to 100. -/
theorem combination_index_sanity :
    get_combination_by_index
        (CombinationGenerator.ofRange 1990 (some 11) 1990 (some 12)) 100 =
      some (2, 11, "Puebla", 1990) ∧
    get_index_of_combination
        (CombinationGenerator.ofRange 1990 (some 11) 1990 (some 12))
        2 11 "Puebla" 1990 = some 100 := by
  refine ⟨by decide, by decide⟩

/-! ## Task queue seeding (`process_person_multiprocess` /
`process_person_parallel`) -/

/-- One search combination `(day, month, state, year)` as produced by
`generate_combinations`. -/
abbrev Combo : Type := Nat × Nat × String × Nat

/-- The task-seeding loop shared by
`HighPerformanceWorker.process_person_multiprocess`
(`for idx, combo in enumerate(combinations): if idx < start_index: continue;
task_queue.put((idx, *combo))`) and
`ParallelWorker.process_person_parallel` (same loop written with an explicit
`combo_idx` counter): running index `idx`, remaining combinations, and the
resume point `start_index`; returns the queued `(index, combo)` tasks in
order. -/
def queueTasksFrom (idx : Nat) (combos : List Combo) (start_index : Nat) :
    List (Nat × Combo) :=
  match combos with
  | [] => []
  | c :: cs =>
    if idx < start_index then queueTasksFrom (idx + 1) cs start_index
    else (idx, c) :: queueTasksFrom (idx + 1) cs start_index

/-- Python `enumerate(combos)` starting at `idx`. -/
def enumFrom (idx : Nat) : List Combo → List (Nat × Combo)
  | [] => []
  | c :: cs => (idx, c) :: enumFrom (idx + 1) cs

theorem queueTasksFrom_eq_filter (idx : Nat) (combos : List Combo)
    (k : Nat) :
    queueTasksFrom idx combos k =
      (enumFrom idx combos).filter (fun p => k ≤ p.1) := by
  induction combos generalizing idx with
  | nil => rfl
  | cons c cs ih =>
    by_cases h : idx < k
    · rw [queueTasksFrom, if_pos h, enumFrom, List.filter_cons,
        if_neg (by simpa using h)]
      exact ih (idx + 1)
    · rw [queueTasksFrom, if_neg h, enumFrom, List.filter_cons,
        if_pos (by simpa using h)]
      rw [ih (idx + 1)]

theorem queueTasksFrom_zero (combos : List Combo) :
    queueTasksFrom 0 combos 0 = enumFrom 0 combos := by
  rw [queueTasksFrom_eq_filter]
  induction (enumFrom 0 combos) with
  | nil => rfl
  | cons p ps ih => rw [List.filter_cons, if_pos (by simp), ih]

theorem enumFrom_getElem? (idx : Nat) (combos : List Combo) (j : Nat)
    (hj : j < combos.length) : (enumFrom idx combos)[j]? =
      some (idx + j, combos[j]) := by
  induction combos generalizing idx j with
  | nil => simp at hj
  | cons c cs ih =>
    cases j with
    | zero => simp [enumFrom]
    | succ j' =>
      have hj' : j' < cs.length := by simpa using hj
      rw [enumFrom]
      simp only [List.getElem?_cons_succ, List.getElem_cons_succ]
      rw [ih (idx + 1) j' hj']
      congr 2
      omega

theorem mem_enumFrom {idx : Nat} {combos : List Combo} {p : Nat × Combo}
    (h : p ∈ enumFrom idx combos) :
    idx ≤ p.1 ∧ p.1 < idx + combos.length ∧
      combos[p.1 - idx]? = some p.2 := by
  induction combos generalizing idx with
  | nil => simp [enumFrom] at h
  | cons c cs ih =>
    rw [enumFrom, List.mem_cons] at h
    rcases h with rfl | h
    · simp
    · obtain ⟨h1, h2, h3⟩ := ih h
      have he : p.1 - idx = (p.1 - (idx + 1)) + 1 := by omega
      refine ⟨by omega, by simp only [List.length_cons]; omega, ?_⟩
      rw [he, List.getElem?_cons_succ]
      exact h3

theorem map_fst_filter_enumFrom (idx : Nat) (combos : List Combo) (k : Nat) :
    ((enumFrom idx combos).filter (fun p => k ≤ p.1)).map Prod.fst =
      pyRange (max k idx) (idx + combos.length) := by
  induction combos generalizing idx with
  | nil =>
    simp only [enumFrom, List.filter_nil, List.map_nil, List.length_nil,
      Nat.add_zero]
    have : (pyRange (max k idx) idx).length = 0 := by
      rw [pyRange_length]; omega
    exact (List.eq_nil_of_length_eq_zero this).symm
  | cons c cs ih =>
    rw [enumFrom, List.filter_cons]
    by_cases h : k ≤ idx
    · rw [if_pos (by simpa using h), List.map_cons, ih (idx + 1)]
      have hmax1 : max k idx = idx := by omega
      have hmax2 : max k (idx + 1) = idx + 1 := by omega
      rw [hmax1, hmax2, List.length_cons]
      have hcons : pyRange idx (idx + (cs.length + 1)) =
          idx :: pyRange (idx + 1) (idx + (cs.length + 1)) :=
        pyRange_eq_cons (by omega)
      rw [hcons]
      congr 1
      congr 1
      omega
    · rw [if_neg (by simpa using h), ih (idx + 1)]
      have hmax1 : max k idx = k := by omega
      have hmax2 : max k (idx + 1) = k := by omega
      rw [hmax1, hmax2, List.length_cons]
      congr 1
      omega

/-- C3: starting a person's run with `start_index = k` enqueues exactly the
tasks whose indices lie in `[k, |combinations|)`, in ascending order, each
index exactly once and no index below `k`, each carrying the combination at
its index; consequently, for any deterministic executor predicate, the
matches of a resumed run are exactly the matches of an uninterrupted run
restricted to indices `≥ k`. -/
theorem c3_resume_enqueue (combos : List Combo) (k : Nat) :
    ((queueTasksFrom 0 combos k).map Prod.fst = pyRange k combos.length) ∧
    ((queueTasksFrom 0 combos k).map Prod.fst).Nodup ∧
    (∀ p ∈ queueTasksFrom 0 combos k, k ≤ p.1 ∧ combos[p.1]? = some p.2) ∧
    (∀ exec : Nat × Combo → Bool,
      (queueTasksFrom 0 combos k).filter exec =
        (queueTasksFrom 0 combos 0).filter
          (fun p => decide (k ≤ p.1) && exec p)) := by
  have hmap : (queueTasksFrom 0 combos k).map Prod.fst =
      pyRange k combos.length := by
    rw [queueTasksFrom_eq_filter, map_fst_filter_enumFrom]
    congr 1 <;> omega
  refine ⟨hmap, ?_, ?_, ?_⟩
  · rw [hmap]; exact pyRange_nodup _ _
  · intro p hp
    rw [queueTasksFrom_eq_filter] at hp
    have hmem := List.mem_filter.mp hp
    have hk : k ≤ p.1 := by simpa using hmem.2
    have := mem_enumFrom hmem.1
    refine ⟨hk, ?_⟩
    simpa using this.2.2
  · intro exec
    rw [queueTasksFrom_eq_filter, queueTasksFrom_zero,
      List.filter_filter]
    refine List.filter_congr ?_
    intro p _
    rw [Bool.and_comm]

/-- Witness for C3 on a concrete two-element task list resumed at `k = 1`. -/
theorem c3_resume_enqueue_witness :
    (1, (2, 11, "Chiapas", 1990)) ∈
      queueTasksFrom 0
        [(1, 11, "Aguascalientes", 1990), (2, 11, "Chiapas", 1990)] 1 ∧
    1 ≤ 1 ∧
    ([((1 : Nat), 11, "Aguascalientes", 1990),
      ((2 : Nat), 11, "Chiapas", 1990)] :
        List Combo)[1]? = some (2, 11, "Chiapas", 1990) :=
  ⟨by decide, le_refl 1,
    ((c3_resume_enqueue
        [(1, 11, "Aguascalientes", 1990), (2, 11, "Chiapas", 1990)] 1).2.2.1
      (1, (2, 11, "Chiapas", 1990)) (by decide)).2⟩

/-! ## Retry handling (`HighPerformanceWorker.worker_thread`) -/

/-- `MAX_RETRIES_PER_TASK = 3` (local constant of `worker_thread`). -/
def MAX_RETRIES_PER_TASK : Nat := 3

/-- Effect of the `RATE_LIMITED` branch of
`HighPerformanceWorker.worker_thread` for a task dequeued with attempt
counter `retry_count` (source lines 206-211): if
`retry_count < MAX_RETRIES_PER_TASK` the task is re-enqueued on
`failed_tasks_queue` as `{'task': task, 'retry_count': retry_count + 1}`
and `local_retries` is incremented by 1; otherwise the branch falls through
to `continue` without re-enqueueing the task and without recording it
anywhere.  Result: (re-enqueued attempt counter if any, `local_retries`
increment). -/
def rateLimitedEffect (retry_count : Nat) : Option Nat × Nat :=
  if retry_count < MAX_RETRIES_PER_TASK then (some (retry_count + 1), 1)
  else (none, 0)

/-- Attempt counter carried by a task on its `(k+1)`-th dequeue when its
executor always returns `RATE_LIMITED`, starting from a fresh main-queue
task (counter 0); `none` once the task has been dropped. -/
def retryCounterAfter : Nat → Option Nat
  | 0 => some 0
  | k + 1 =>
    match retryCounterAfter k with
    | some r => (rateLimitedEffect r).1
    | none => none

/-- Per-worker final statistics recorded in `self.worker_stats` on worker
exit (source lines 284-291): the dict keys `searches`, `matches`, `retries`
(the wall-clock `elapsed` and `rate` entries are not modelled).  There is no
record of unresolved tasks, only the aggregate count of performed retries. -/
structure WorkerStats where
  searches : Nat
  matches_found : Nat
  retries : Nat
deriving DecidableEq

/-- C4 counterexample: a task dequeued at the retry cap
(`retry_count = MAX_RETRIES_PER_TASK`) is dropped with no observable effect
at all — it is not re-enqueued and nothing (not even the retry counter) is
recorded, contradicting the claim that the task is recorded as unresolved
and reported in the final statistics. -/
theorem c4_counterexample :
    rateLimitedEffect MAX_RETRIES_PER_TASK = (none, 0) := by decide

/-- C4 amended: a task whose executor always returns `RATE_LIMITED` is
re-enqueued with an incremented attempt counter at most
`MAX_RETRIES_PER_TASK` (3) times and is never retried infinitely — its
`(k+1)`-th dequeue exists exactly for `k ≤ 3` — but once the cap is
exceeded the task is silently dropped: the capped branch neither re-enqueues
it nor records anything; only the aggregate retry count reaches the final
statistics. -/
theorem c4_retry_cap (k : Nat) :
    retryCounterAfter k =
      (if k ≤ MAX_RETRIES_PER_TASK then some k else none) ∧
    (∀ r, r < MAX_RETRIES_PER_TASK → rateLimitedEffect r = (some (r + 1), 1)) ∧
    (∀ r, MAX_RETRIES_PER_TASK ≤ r → rateLimitedEffect r = (none, 0)) := by
  refine ⟨?_, ?_, ?_⟩
  · induction k with
    | zero => rfl
    | succ k ih =>
      rw [retryCounterAfter, ih]
      rcases Nat.lt_or_ge k MAX_RETRIES_PER_TASK with h | h
      · rw [if_pos (by omega), if_pos (by omega)]
        show (rateLimitedEffect k).1 = some (k + 1)
        unfold rateLimitedEffect
        rw [if_pos h]
      · rcases Nat.eq_or_lt_of_le h with he | hlt
        · rw [if_pos (by omega), if_neg (by omega)]
          show (rateLimitedEffect k).1 = none
          unfold rateLimitedEffect
          rw [if_neg (by omega)]
        · rw [if_neg (by omega), if_neg (by omega)]
  · intro r h
    unfold rateLimitedEffect
    rw [if_pos h]
  · intro r h
    unfold rateLimitedEffect
    rw [if_neg (by omega)]

/-- Witness for C4 at concrete attempt counters: the task survives its
fourth dequeue (counter 3) but not a fifth; counter 2 is re-enqueued as 3;
counter 3 is dropped silently. -/
theorem c4_retry_cap_witness :
    retryCounterAfter 3 = some 3 ∧ retryCounterAfter 4 = none ∧
    (2 < MAX_RETRIES_PER_TASK ∧ rateLimitedEffect 2 = (some 3, 1)) ∧
    (MAX_RETRIES_PER_TASK ≤ 3 ∧ rateLimitedEffect 3 = (none, 0)) :=
  ⟨by have h := (c4_retry_cap 3).1; simpa using h,
   by have h := (c4_retry_cap 4).1; simpa using h,
   ⟨by decide, (c4_retry_cap 0).2.1 2 (by decide)⟩,
   ⟨by decide, (c4_retry_cap 0).2.2 3 (by decide)⟩⟩

/-! ## Early-stop signalling (`worker_thread` loop) -/

/-- Phases of the `worker_thread` loop in `multiprocess_worker.py`: at the
top of every iteration the worker re-reads
`not stop_event.is_set() and not match_found_event.is_set()` (line 140);
once the loop exits, the thread only writes its final statistics and
terminates. -/
inductive WorkerPhase
  | loopTop
  | finished
deriving DecidableEq

/-- Scheduler-visible action of one loop iteration. -/
inductive WorkerAction
  | observeStop
  | dequeue (idx : Nat)
  | loopPass
  | exitLoop
deriving DecidableEq

/-- One transition of the worker loop.  The `Bool` is the value of
`stop_event.is_set() or match_found_event.is_set()` read at the top of the
iteration: reading `true` exits the loop without touching the queues
(`observeStop`); only an iteration that reads `false` may dequeue a task
from the retry or main queue (`dequeue`), pass without work (`loopPass`:
empty-queue `continue` path), or break out (`exitLoop`: all-tasks-done or
poison-pill `break`). -/
inductive WorkerStep : WorkerPhase → Bool → WorkerAction → WorkerPhase → Prop
  | observe : WorkerStep .loopTop true .observeStop .finished
  | deq (idx : Nat) : WorkerStep .loopTop false (.dequeue idx) .loopTop
  | pass : WorkerStep .loopTop false .loopPass .loopTop
  | exitDone : WorkerStep .loopTop false .exitLoop .finished

/-- `WorkerTrace p tr`: `tr` is a trace of loop iterations from phase `p`;
each entry records (signal read at loop top, action, next phase). -/
inductive WorkerTrace : WorkerPhase → List (Bool × WorkerAction × WorkerPhase) → Prop
  | nil (p : WorkerPhase) : WorkerTrace p []
  | cons {p : WorkerPhase} {s : Bool} {a : WorkerAction} {p' : WorkerPhase}
      {rest : List (Bool × WorkerAction × WorkerPhase)} :
      WorkerStep p s a p' → WorkerTrace p' rest →
      WorkerTrace p ((s, a, p') :: rest)

theorem workerTrace_finished_nil {tr : List (Bool × WorkerAction × WorkerPhase)}
    (h : WorkerTrace .finished tr) : tr = [] := by
  cases h with
  | nil => rfl
  | cons hstep _ => cases hstep

theorem workerTrace_observe_last
    {tr : List (Bool × WorkerAction × WorkerPhase)}
    (h : WorkerTrace .loopTop tr) {i : Nat} {s : Bool} {p' : WorkerPhase}
    (hobs : tr[i]? = some (s, .observeStop, p')) : tr.length = i + 1 := by
  induction tr generalizing i with
  | nil => simp at hobs
  | cons e rest ih =>
    cases h with
    | cons hstep hrest =>
      cases i with
      | zero =>
        rw [List.getElem?_cons_zero] at hobs
        injection hobs with heq
        cases hstep with
        | observe =>
          rw [workerTrace_finished_nil hrest]
          rfl
        | deq idx =>
          exact absurd (congrArg (fun t => t.2.1) heq) (by simp)
        | pass =>
          exact absurd (congrArg (fun t => t.2.1) heq) (by simp)
        | exitDone =>
          exact absurd (congrArg (fun t => t.2.1) heq) (by simp)
      | succ j =>
        rw [List.getElem?_cons_succ] at hobs
        cases hstep with
        | observe =>
          rw [workerTrace_finished_nil hrest] at hobs
          simp at hobs
        | deq idx =>
          rw [List.length_cons, ih hrest hobs]
        | pass =>
          rw [List.length_cons, ih hrest hobs]
        | exitDone =>
          rw [workerTrace_finished_nil hrest] at hobs
          simp at hobs

/-- C5: in every trace of the worker loop, once a worker observes the
stop/match-found signal at the top of its loop (the `observeStop` step), no
later step of that worker dequeues a task: the loop-top check precedes every
dequeue, so in-flight iterations may complete but no new dequeue occurs
after the signal is observed. -/
theorem c5_early_stop (tr : List (Bool × WorkerAction × WorkerPhase))
    (htr : WorkerTrace .loopTop tr) (i : Nat) (s : Bool) (p' : WorkerPhase)
    (hobs : tr[i]? = some (s, .observeStop, p')) :
    ∀ j, i < j → ∀ s' : Bool, ∀ idx : Nat, ∀ p'' : WorkerPhase,
      tr[j]? ≠ some (s', .dequeue idx, p'') := by
  intro j hij s' idx p'' hj
  have hlen := workerTrace_observe_last htr hobs
  have hnone : tr[j]? = none := List.getElem?_eq_none (by omega)
  rw [hnone] at hj
  exact Option.noConfusion hj

/-- Witness for C5: a two-step trace that dequeues once while the signal is
down and then observes the signal; no step after the observation is a
dequeue. -/
theorem c5_early_stop_witness :
    WorkerTrace .loopTop
      [(false, .dequeue 0, .loopTop), (true, .observeStop, .finished)] ∧
    ([((false : Bool), WorkerAction.dequeue 0, WorkerPhase.loopTop),
      (true, .observeStop, .finished)][1]? =
        some (true, WorkerAction.observeStop, WorkerPhase.finished)) ∧
    (∀ j, 1 < j → ∀ s' : Bool, ∀ idx : Nat, ∀ p'' : WorkerPhase,
      [((false : Bool), WorkerAction.dequeue 0, WorkerPhase.loopTop),
       (true, .observeStop, .finished)][j]? ≠
        some (s', WorkerAction.dequeue idx, p'')) :=
  ⟨WorkerTrace.cons (WorkerStep.deq 0)
      (WorkerTrace.cons WorkerStep.observe (WorkerTrace.nil _)),
   rfl,
   c5_early_stop _
     (WorkerTrace.cons (WorkerStep.deq 0)
       (WorkerTrace.cons WorkerStep.observe (WorkerTrace.nil _)))
     1 true .finished rfl⟩

/-! ## Shared counters and matches list ownership -/

/-- Per-run shared state relevant to counter/matches ownership: the
`self.processed_count` and `self.match_count` counters of
`HighPerformanceWorker`, the pending `('match', data)` messages on
`result_queue` (payload abstracted to an id), and the writer thread's
`all_results` list (the matches list written to checkpoints and the result
sink). -/
structure RunState where
  processed_count : Nat
  match_count : Nat
  result_queue : List Nat
  all_results : List Nat
deriving DecidableEq

/-- Effect on the shared state of one successful search processed by a
worker thread (`HighPerformanceWorker.worker_thread`, lines 221-263): the
worker increments `self.processed_count` under `count_lock`; if the result
is a valid match it puts `('match', data)` on `result_queue` and increments
`self.match_count` under `count_lock`.  The worker never touches the
writer's `all_results` list. -/
def workerResultStep (matchData : Option Nat) (s : RunState) : RunState :=
  { s with
    processed_count := s.processed_count + 1,
    match_count := match matchData with
      | some _ => s.match_count + 1
      | none => s.match_count,
    result_queue := match matchData with
      | some d => s.result_queue ++ [d]
      | none => s.result_queue }

/-- Effect of one iteration of
`HighPerformanceWorker.result_writer_thread` (lines 371-385) consuming a
pending `('match', data)` message: the writer appends the match to its
`all_results` list; it reads but never writes `processed_count` or
`match_count`. -/
def writerConsumeStep (s : RunState) : RunState :=
  match s.result_queue with
  | [] => s
  | d :: rest =>
    { s with result_queue := rest, all_results := s.all_results ++ [d] }

/-- Per-run shared state of `ParallelWorker` (the second implementation the
spec's ownership claim covers): the `processed_count['count']` counter dict
and the shared `all_results` matches list.  `ParallelWorker` has no writer
thread and no `match_count`. -/
structure ParallelRunState where
  processed_count : Nat
  all_results : List Nat
deriving DecidableEq

/-- Effect on the shared state of one successful search processed by a
worker thread of `ParallelWorker.worker_thread` (lines 137-168): on a valid
match the worker itself appends `match_data` to the shared `all_results`
list under `results_lock` (lines 154-155), and it increments
`processed_count['count']` under `processed_count_lock` (lines 166-168).
There is no aggregator thread in this implementation at all. -/
def parallelWorkerResultStep (matchData : Option Nat)
    (s : ParallelRunState) : ParallelRunState :=
  { processed_count := s.processed_count + 1,
    all_results := match matchData with
      | some d => s.all_results ++ [d]
      | none => s.all_results }

/-- C9 counterexample: in the multiprocess worker a worker step at a
concrete state mutates the shared `processed_count` and `match_count`, and
in the parallel worker a worker step additionally mutates the shared
matches list `all_results` itself — so none of the three are mutated
exclusively by an aggregator thread, contradicting the claim. -/
theorem c9_counterexample :
    (workerResultStep (some 7) ⟨0, 0, [], []⟩).processed_count = 1 ∧
    (workerResultStep (some 7) ⟨0, 0, [], []⟩).match_count = 1 ∧
    (⟨0, 0, [], []⟩ : RunState).processed_count = 0 ∧
    (⟨0, 0, [], []⟩ : RunState).match_count = 0 ∧
    (parallelWorkerResultStep (some 7) ⟨0, []⟩).all_results = [7] ∧
    (parallelWorkerResultStep (some 7) ⟨0, []⟩).processed_count = 1 ∧
    (⟨0, []⟩ : ParallelRunState).all_results = [] :=
  ⟨rfl, rfl, rfl, rfl, rfl, rfl, rfl⟩

/-- C9 amended: in neither cited worker implementation is the shared state
mutated exclusively by a single aggregator.  In
`HighPerformanceWorker` (multiprocess), the worker threads themselves
increment `processed_count` and `match_count` under `count_lock`, and only
the `all_results` matches list is writer-exclusive there — a worker step
never changes it and passes match data through `result_queue` messages,
while a writer consume step never changes the counters.  In
`ParallelWorker` there is no writer thread at all: a worker step itself
increments `processed_count` and appends the match directly to the shared
`all_results` list. -/
theorem c9_ownership (matchData : Option Nat) (s : RunState)
    (ps : ParallelRunState) :
    (workerResultStep matchData s).all_results = s.all_results ∧
    (writerConsumeStep s).processed_count = s.processed_count ∧
    (writerConsumeStep s).match_count = s.match_count ∧
    (workerResultStep matchData s).processed_count = s.processed_count + 1 ∧
    (∀ d, matchData = some d →
      (workerResultStep matchData s).match_count = s.match_count + 1 ∧
      (workerResultStep matchData s).result_queue = s.result_queue ++ [d]) ∧
    (parallelWorkerResultStep matchData ps).processed_count =
      ps.processed_count + 1 ∧
    (∀ d, matchData = some d →
      (parallelWorkerResultStep matchData ps).all_results =
        ps.all_results ++ [d]) := by
  refine ⟨rfl, ?_, ?_, rfl, ?_, rfl, ?_⟩
  · unfold writerConsumeStep
    cases s.result_queue <;> rfl
  · unfold writerConsumeStep
    cases s.result_queue <;> rfl
  · intro d hd
    subst hd
    exact ⟨rfl, rfl⟩
  · intro d hd
    subst hd
    rfl

/-- Witness for C9 at a concrete worker step carrying match id 5, in both
implementations. -/
theorem c9_ownership_witness :
    ((some 5 : Option Nat) = some 5) ∧
    ((workerResultStep (some 5) ⟨2, 1, [9], [4]⟩).match_count = 1 + 1 ∧
      (workerResultStep (some 5) ⟨2, 1, [9], [4]⟩).result_queue =
        [9] ++ [5]) ∧
    (parallelWorkerResultStep (some 5) ⟨2, [4]⟩).all_results = [4] ++ [5] :=
  ⟨rfl, (c9_ownership (some 5) ⟨2, 1, [9], [4]⟩ ⟨2, [4]⟩).2.2.2.2.1 5 rfl,
   (c9_ownership (some 5) ⟨2, 1, [9], [4]⟩ ⟨2, [4]⟩).2.2.2.2.2.2 5 rfl⟩

/-! ## `src/result_validator.py` — character primitives

The validator operates on ASCII content; Python's `str.upper`/`str.lower`
coincide with `Char.toUpper`/`Char.toLower` there, and `str.strip()` and
`\s` strip/match the ASCII whitespace characters. -/

/-- Uppercase ASCII letter (`[A-Z]`). -/
def isUpperCh (c : Char) : Bool := 65 ≤ c.toNat && c.toNat ≤ 90

/-- Lowercase ASCII letter (`[a-z]`). -/
def isLowerCh (c : Char) : Bool := 97 ≤ c.toNat && c.toNat ≤ 122

/-- ASCII digit (`\d` on the inputs of interest). -/
def isDigitCh (c : Char) : Bool := 48 ≤ c.toNat && c.toNat ≤ 57

/-- Python `\s` (ASCII part): the characters `str.strip()` removes. -/
def isPySpace (c : Char) : Bool :=
  c = ' ' || c = '\t' || c = '\n' || c = '\r' || c = '\x0B' || c = '\x0C'

/-- Python `str.lower()` (ASCII). -/
def pyLower (l : List Char) : List Char := l.map Char.toLower

/-- Python `str.upper()` (ASCII). -/
def pyUpper (l : List Char) : List Char := l.map Char.toUpper

/-- Python `str.strip()`: drop whitespace at both ends. -/
def pyStrip (l : List Char) : List Char :=
  ((l.dropWhile isPySpace).reverse.dropWhile isPySpace).reverse

/-- Python substring test `needle in hay`. -/
def hasSub (needle : List Char) : List Char → Bool
  | [] => needle.isEmpty
  | c :: cs => needle.isPrefixOf (c :: cs) || hasSub needle cs

/-! ## The CURP pattern

`CURP_REGEX = re.compile(r'^[A-Z]{4}\d{6}[HM][A-Z]{5}[0-9A-Z]\d$')`. -/

/-- The character class of `CURP_REGEX` at 0-based position `i`:
positions 0-3 uppercase letters, 4-9 digits, 10 `H` or `M`, 11-15 uppercase
letters, 16 digit or uppercase letter, 17 digit. -/
def charClassAt (i : Nat) (c : Char) : Bool :=
  if i < 4 then isUpperCh c
  else if i < 10 then isDigitCh c
  else if i = 10 then c = 'H' || c = 'M'
  else if i < 16 then isUpperCh c
  else if i = 16 then isDigitCh c || isUpperCh c
  else isDigitCh c

/-- A full 18-character match of the `CURP_REGEX` body. -/
def curpShape (l : List Char) : Bool :=
  l.length = 18 && (List.range 18).all (fun i => charClassAt i (l.getD i ' '))

/-- `ResultValidator.is_valid_curp`: falsy input is rejected;
`curp_clean = curp.strip().upper()` must have length 18 and match
`CURP_REGEX` via `re.match` — anchored `^...$`, and since the cleaned
string is exactly 18 characters and cannot end in a (stripped) newline,
that is a full 18-character match. -/
def is_valid_curp (curp : String) : Bool :=
  if curp.isEmpty then false
  else
    let curp_clean := pyUpper (pyStrip curp.toList)
    curp_clean.length = 18 && curpShape curp_clean

/-! ## `CURP_REGEX.findall` (used by `extract_curp_from_text`)

Without `re.MULTILINE`, `^` matches only at position 0 and `$` matches at
the end of the string or just before a newline that ends the string, so the
anchored pattern can match at most once, starting at position 0. -/

/-- Python `$` (no `re.MULTILINE`): position `q` is the end of the string,
or the position of a newline that ends the string. -/
def dollarAt (l : List Char) (q : Nat) : Bool :=
  q = l.length || (q + 1 = l.length && l.getD q ' ' = '\n')

/-- A match of `CURP_REGEX` starting at position `p` of `l`: `^` restricts
`p` to 0, the body consumes 18 class characters, and `$` must hold after
them. -/
def curpMatchAt (l : List Char) (p : Nat) : Bool :=
  p = 0 && curpShape ((l.drop p).take 18) && dollarAt l (p + 18)

/-- `CURP_REGEX.findall(text)`: scan all start positions in order,
collecting the matched 18-character substrings. -/
def findallCURP (l : List Char) : List (List Char) :=
  (List.range (l.length + 1)).filterMap
    (fun p => if curpMatchAt l p then some ((l.drop p).take 18) else none)

/-- `ResultValidator.extract_curp_from_text`: `None` for falsy text,
otherwise the first `findall` match of `text.upper()` (if any). -/
def extract_curp_from_text (text : String) : Option String :=
  if text.isEmpty then none
  else (findallCURP (pyUpper text.toList)).head?.map String.mk

/-! ## Dates (`datetime(year, month, day)` / `strftime('%Y-%m-%d')`) -/

/-- Proleptic Gregorian leap year, as `datetime` uses. -/
def isLeapYear (y : Nat) : Bool := (y % 4 = 0 && y % 100 ≠ 0) || y % 400 = 0

def daysInMonth (y m : Nat) : Nat :=
  if m = 2 then (if isLeapYear y then 29 else 28)
  else if m = 4 || m = 6 || m = 9 || m = 11 then 30
  else 31

/-- `datetime(year, month, day)` constructs without raising `ValueError`. -/
def validDate (y m d : Nat) : Bool :=
  1 ≤ y && y ≤ 9999 && 1 ≤ m && m ≤ 12 && 1 ≤ d && d ≤ daysInMonth y m

def pad2 (n : Nat) : String := if n < 10 then "0" ++ toString n else toString n

def pad4 (n : Nat) : String :=
  if n < 10 then "000" ++ toString n
  else if n < 100 then "00" ++ toString n
  else if n < 1000 then "0" ++ toString n
  else toString n

/-- `strftime('%Y-%m-%d')`. -/
def fmtDate (y m d : Nat) : String := pad4 y ++ "-" ++ pad2 m ++ "-" ++ pad2 d

/-- `int` of a two-ASCII-digit slice. -/
def digit2 (a b : Char) : Nat := (a.toNat - 48) * 10 + (b.toNat - 48)

/-- The century window of `extract_date_from_curp` (source lines 84-88):
`year <= 30` maps to `2000 + year`, otherwise `1900 + year` (the Python
`year >= 0` conjunct is vacuous for `Nat`). -/
def fullYearOfTwoDigit (y : Nat) : Nat :=
  if y ≤ 30 then 2000 + y else 1900 + y

/-- `ResultValidator.extract_date_from_curp`: `None` unless `is_valid_curp`;
positions 4-9 of the cleaned CURP are `YYMMDD`; `datetime` validation
failure yields `None`. -/
def extract_date_from_curp (curp : String) : Option String :=
  if is_valid_curp curp then
    let l := pyUpper (pyStrip curp.toList)
    let year := digit2 (l.getD 4 '0') (l.getD 5 '0')
    let month := digit2 (l.getD 6 '0') (l.getD 7 '0')
    let day := digit2 (l.getD 8 '0') (l.getD 9 '0')
    let full_year := fullYearOfTwoDigit year
    if validDate full_year month day then some (fmtDate full_year month day)
    else none
  else none

/-- `ResultValidator.extract_state_code_from_curp`: characters at 0-based
positions 11-12 of the cleaned CURP (guarded by a length-13 check). -/
def extract_state_code_from_curp (curp : String) : Option String :=
  if is_valid_curp curp then
    let l := pyUpper (pyStrip curp.toList)
    if 13 ≤ l.length then some (String.mk ((l.drop 11).take 2)) else none
  else none

/-! ## The table-row patterns of `validate_result`

`validate_result` searches (with `re.IGNORECASE`) for

* `curp_pattern`: `<td[^>]*>CURP:</td>\s*<td[^>]*style="text-transform:\s*uppercase;">([A-Z0-9]{18})</td>`
* `date_pattern`: the same shape with label `Fecha de nacimiento:[^<]*` and group `(\d{2}/\d{2}/\d{4})`
* `state_pattern`: the same shape with label `Entidad de nacimiento:` and group `([^<]+)`

Each `[^>]*` that is followed by `>` is deterministic (the class cannot
cross `>`); the `[^>]*` that is followed by the `style=` literal genuinely
backtracks, greedily trying the longest run of non-`>` characters first.
The `\s*` occurrences are followed by non-space characters, and each
captured group is followed by `<`, so they are deterministic. -/

/-- Case-insensitive literal match (`re.IGNORECASE`): the pattern is given
in lowercase and consumed from the input; returns the rest of the input. -/
def litMatch : List Char → List Char → Option (List Char)
  | [], l => some l
  | _ :: _, [] => none
  | p :: ps, c :: cs => if c.toLower = p then litMatch ps cs else none

/-- `[A-Z0-9]` under `re.IGNORECASE`: an ASCII letter of either case or a
digit. -/
def isCurpGroupChar (c : Char) : Bool :=
  isUpperCh c || isLowerCh c || isDigitCh c

/-- Pattern tail `\s*uppercase;">([A-Z0-9]{18})</td>` (after the
`style="text-transform:` literal); returns the captured group. -/
def curpRowTail (l : List Char) : Option (List Char) :=
  (litMatch "uppercase;\">".toList (l.dropWhile isPySpace)).bind (fun l2 =>
    let grp := l2.take 18
    if grp.length = 18 && grp.all isCurpGroupChar then
      (litMatch "</td>".toList (l2.drop 18)).map (fun _ => grp)
    else none)

/-- Pattern tail `\s*uppercase;">(\d{2}/\d{2}/\d{4})</td>`. -/
def dateRowTail (l : List Char) : Option (List Char) :=
  (litMatch "uppercase;\">".toList (l.dropWhile isPySpace)).bind (fun l2 =>
    match l2.take 10 with
    | [d1, d2, s1, m1, m2, s2, y1, y2, y3, y4] =>
      if isDigitCh d1 && isDigitCh d2 && s1 = '/' && isDigitCh m1 &&
          isDigitCh m2 && s2 = '/' && isDigitCh y1 && isDigitCh y2 &&
          isDigitCh y3 && isDigitCh y4 then
        (litMatch "</td>".toList (l2.drop 10)).map (fun _ => l2.take 10)
      else none
    | _ => none)

/-- Pattern tail `\s*uppercase;">([^<]+)</td>`. -/
def stateRowTail (l : List Char) : Option (List Char) :=
  (litMatch "uppercase;\">".toList (l.dropWhile isPySpace)).bind (fun l2 =>
    let grp := l2.takeWhile (fun c => c ≠ '<')
    if grp.isEmpty then none
    else (litMatch "</td>".toList (l2.drop grp.length)).map (fun _ => grp))

/-- Greedy backtracking over the `[^>]*` that precedes the
`style="text-transform:` literal: `k` characters of the non-`>` run are
consumed by the class, longest first. -/
def styleSplits (tail : List Char → Option (List Char)) :
    Nat → List Char → Option (List Char)
  | 0, l => (litMatch "style=\"text-transform:".toList l).bind tail
  | k + 1, l =>
    match (litMatch "style=\"text-transform:".toList (l.drop (k + 1))).bind
        tail with
    | some g => some g
    | none => styleSplits tail k l

/-- One attempt of a table-row pattern at the current position:
`<td`, then `[^>]*` (stops at the first `>` since the label starts with
`>`), the label, `\s*`, `<td`, then the backtracking `[^>]*` and
`style="text-transform:` plus the tail. -/
def tryRowAt (labelMatch tail : List Char → Option (List Char))
    (l : List Char) : Option (List Char) :=
  match litMatch "<td".toList l with
  | none => none
  | some l1 =>
    match labelMatch (l1.dropWhile (fun c => c ≠ '>')) with
    | none => none
    | some l3 =>
      match litMatch "<td".toList (l3.dropWhile isPySpace) with
      | none => none
      | some l5 =>
        styleSplits tail (l5.takeWhile (fun c => c ≠ '>')).length l5

/-- `re.search`: try the pattern at every start position, left to right. -/
def searchRow (try_ : List Char → Option (List Char)) :
    List Char → Option (List Char)
  | [] => try_ []
  | c :: cs =>
    match try_ (c :: cs) with
    | some g => some g
    | none => searchRow try_ cs

/-- Label `>CURP:</td>`. -/
def curpLabelMatch (l : List Char) : Option (List Char) :=
  litMatch ">curp:</td>".toList l

/-- Label `>Fecha de nacimiento:[^<]*</td>` (the `[^<]*` stops at the first
`<` since the following literal starts with `<`). -/
def dateLabelMatch (l : List Char) : Option (List Char) :=
  (litMatch ">fecha de nacimiento:".toList l).bind (fun l2 =>
    litMatch "</td>".toList (l2.dropWhile (fun c => c ≠ '<')))

/-- Label `>Entidad de nacimiento:</td>`. -/
def stateLabelMatch (l : List Char) : Option (List Char) :=
  litMatch ">entidad de nacimiento:</td>".toList l

/-- `re.search(curp_pattern, html, re.IGNORECASE)`, returning group 1. -/
def searchCurpRow (l : List Char) : Option (List Char) :=
  searchRow (tryRowAt curpLabelMatch curpRowTail) l

/-- `re.search(date_pattern, html, re.IGNORECASE)`, returning group 1. -/
def searchDateRow (l : List Char) : Option (List Char) :=
  searchRow (tryRowAt dateLabelMatch dateRowTail) l

/-- `re.search(state_pattern, html, re.IGNORECASE)`, returning group 1. -/
def searchStateRow (l : List Char) : Option (List Char) :=
  searchRow (tryRowAt stateLabelMatch stateRowTail) l

/-- `datetime.strptime(date_str, '%d/%m/%Y').strftime('%Y-%m-%d')` on a
captured `DD/MM/YYYY` group; `None` where `strptime` raises (the bare
`except` then keeps the previously extracted birth date). -/
def dmySlashToIso (grp : List Char) : Option String :=
  match grp with
  | [d1, d2, _, m1, m2, _, y1, y2, y3, y4] =>
    let d := digit2 d1 d2
    let m := digit2 m1 m2
    let y := (digit2 y1 y2) * 100 + digit2 y3 y4
    if validDate y m d then some (fmtDate y m d) else none
  | _ => none

/-! ## `ResultValidator.validate_result` -/

/-- The result dictionary of `validate_result`; the `state_name` key is
only inserted in the table branch, hence `Option` with `none` for
"absent". -/
structure ValidationResult where
  valid : Bool
  curp : Option String
  birth_date : Option String
  state_code : Option String
  found : Bool
  state_name : Option String
deriving DecidableEq

/-- The initial all-`False`/`None` result dictionary. -/
def emptyResult : ValidationResult := ⟨false, none, none, none, false, none⟩

/-- The `no_match_indicators` list (checked against the lowercased
content). -/
def NO_MATCH_INDICATORS : List (List Char) :=
  ["los datos ingresados no son correctos".toList,
   "aviso importante".toList,
   "warningmenssage".toList,
   "estimado/a usuario/a".toList]

/-- The table branch of `validate_result` (source lines 167-202): search
the CURP row; on a pattern-valid captured CURP (`group(1).strip().upper()`)
fill the result, override `birth_date` from the date row when present and
parseable, and add `state_name` from the state row when present.  `none`
when the branch leaves `found` false (no row match, or captured CURP
invalid), in which case the caller falls through to the text fallback. -/
def tableBranch (html : List Char) : Option ValidationResult :=
  match searchCurpRow html with
  | none => none
  | some grp =>
    let curp := String.mk (pyUpper (pyStrip grp))
    if is_valid_curp curp then
      let base : ValidationResult :=
        { valid := true, curp := some curp,
          birth_date := extract_date_from_curp curp,
          state_code := extract_state_code_from_curp curp,
          found := true, state_name := none }
      let withDate :=
        match searchDateRow html with
        | some dgrp =>
          match dmySlashToIso dgrp with
          | some iso => { base with birth_date := some iso }
          | none => base
        | none => base
      some (match searchStateRow html with
        | some sgrp =>
          { withDate with state_name := some (String.mk (pyStrip sgrp)) }
        | none => withDate)
    else none

/-- The fallback branch of `validate_result` (source lines 204-212):
extract a CURP from the whole text and validate it. -/
def fallbackBranch (html : String) : ValidationResult :=
  match extract_curp_from_text html with
  | some curp =>
    if is_valid_curp curp then
      { valid := true, curp := some curp,
        birth_date := extract_date_from_curp curp,
        state_code := extract_state_code_from_curp curp,
        found := true, state_name := none }
    else emptyResult
  | none => emptyResult

/-- `ResultValidator.validate_result` (its `expected_state` parameter is
never read by the source, so it is omitted): falsy content and content
containing a no-match indicator yield the empty result; otherwise the
table branch, then the text fallback. -/
def validate_result (html_content : String) : ValidationResult :=
  if html_content.isEmpty then emptyResult
  else
    if NO_MATCH_INDICATORS.any
        (fun ind => hasSub ind (pyLower html_content.toList)) then
      emptyResult
    else
      match tableBranch html_content.toList with
      | some r => r
      | none => fallbackBranch html_content

/-! ## Claims C8, C6, C10 -/

/-- C8: the validator maps the embedded 2-digit year `y` to `2000 + y` for
`y` in `00..30` and to `1900 + y` for `y` in `31..99`; concretely, the
identifier `ABCD900101HDFXYZ01` is accepted as pattern-valid and its
extracted birth date is `1990-01-01`. -/
theorem c8_year_mapping :
    (∀ y : Nat, y ≤ 30 → fullYearOfTwoDigit y = 2000 + y) ∧
    (∀ y : Nat, 31 ≤ y → y ≤ 99 → fullYearOfTwoDigit y = 1900 + y) ∧
    is_valid_curp "ABCD900101HDFXYZ01" = true ∧
    extract_date_from_curp "ABCD900101HDFXYZ01" = some "1990-01-01" := by
  refine ⟨?_, ?_, by decide, by decide⟩
  · intro y h
    unfold fullYearOfTwoDigit
    rw [if_pos h]
  · intro y h1 h2
    unfold fullYearOfTwoDigit
    rw [if_neg (by omega)]

/-- Witness for C8 at the concrete year digits 90 (→ 1990) and 05
(→ 2005). -/
theorem c8_year_mapping_witness :
    ((31 : Nat) ≤ 90 ∧ (90 : Nat) ≤ 99 ∧
      fullYearOfTwoDigit 90 = 1900 + 90) ∧
    ((5 : Nat) ≤ 30 ∧ fullYearOfTwoDigit 5 = 2000 + 5) :=
  ⟨⟨by decide, by decide, c8_year_mapping.2.1 90 (by decide) (by decide)⟩,
   ⟨by decide, c8_year_mapping.1 5 (by decide)⟩⟩

/-- C6 counterexample: the identifier `ABCD051301HDFGHI01` is pattern-valid
with embedded month `13` (an invalid calendar date), yet `validate_result`
accepts it with `found = true` and `valid = true` — refuting the claim that
such identifiers are rejected with `found = false` and `valid = false`.
Only the extracted birth date comes out `None`. -/
theorem c6_counterexample :
    is_valid_curp "ABCD051301HDFGHI01" = true ∧
    extract_date_from_curp "ABCD051301HDFGHI01" = none ∧
    validate_result "ABCD051301HDFGHI01" =
      { valid := true, curp := some "ABCD051301HDFGHI01", birth_date := none,
        state_code := some "DF", found := true, state_name := none } ∧
    ¬((validate_result "ABCD051301HDFGHI01").found = false ∧
      (validate_result "ABCD051301HDFGHI01").valid = false) := by
  refine ⟨by decide, by decide, by decide, by decide⟩

/-- C10 counterexample: on the identifier followed by a newline,
`extract_curp_from_text` returns the CURP although the entire uppercased
text is not itself an 18-character pattern match and the identifier is a
proper substring of the text — Python's `$` also matches just before a
trailing newline — refuting the claimed equivalence along with its
"proper substring implies None" half. -/
theorem c10_counterexample :
    extract_curp_from_text "ABCD900101HDFXYZ01\n" =
      some "ABCD900101HDFXYZ01" ∧
    curpShape (pyUpper "ABCD900101HDFXYZ01\n".toList) = false ∧
    "ABCD900101HDFXYZ01\n" ≠ "ABCD900101HDFXYZ01" := by
  refine ⟨by decide, by decide, by decide⟩

/-- Sanity check of the table-branch embedding on a concrete results-table
fragment: the CURP is extracted from the `<td>` row pattern with its decoded
birth date and state code. -/
theorem validate_result_table_sanity :
    validate_result ("<td>CURP:</td> <td style=\"text-transform: " ++
        "uppercase;\">ABCD900101HDFXYZ01</td>") =
      { valid := true, curp := some "ABCD900101HDFXYZ01",
        birth_date := some "1990-01-01", state_code := some "DF",
        found := true, state_name := none } := by decide

/-- Sanity check: content carrying a no-match indicator yields the empty
result even when a pattern-valid identifier occurs in it. -/
theorem validate_result_no_match_sanity :
    validate_result ("Aviso importante: los datos ingresados no son " ++
      "correctos ABCD900101HDFXYZ01") = emptyResult := by decide

/-! ## Character-level lemmas for the validator -/

theorem char_toNat_ofNat (n : Nat) (h : n < 55296) :
    (Char.ofNat n).toNat = n := by
  unfold Char.ofNat
  rw [dif_pos (Or.inl h)]
  rfl

theorem char_ne_of_toNat_ne {c d : Char} (h : c.toNat ≠ d.toNat) : c ≠ d := by
  intro he
  exact h (by rw [he])

theorem isUpperCh_toNat {c : Char} (h : isUpperCh c = true) :
    65 ≤ c.toNat ∧ c.toNat ≤ 90 := by
  unfold isUpperCh at h
  rw [Bool.and_eq_true, decide_eq_true_eq, decide_eq_true_eq] at h
  exact h

theorem isDigitCh_toNat {c : Char} (h : isDigitCh c = true) :
    48 ≤ c.toNat ∧ c.toNat ≤ 57 := by
  unfold isDigitCh at h
  rw [Bool.and_eq_true, decide_eq_true_eq, decide_eq_true_eq] at h
  exact h

/-- `str.upper()` fixes uppercase letters and digits. -/
theorem toUpper_fixed {c : Char} (h : isUpperCh c = true ∨ isDigitCh c = true) :
    Char.toUpper c = c := by
  have hn : c.toNat ≤ 90 := by
    rcases h with h | h
    · exact (isUpperCh_toNat h).2
    · have := (isDigitCh_toNat h).2; omega
  unfold Char.toUpper
  rw [if_neg (by omega)]

/-- `str.lower()` fixes digits. -/
theorem toLower_fixed_digit {c : Char} (h : isDigitCh c = true) :
    Char.toLower c = c := by
  have hn := isDigitCh_toNat h
  unfold Char.toLower
  rw [if_neg (by omega)]

/-- `str.lower()` maps an uppercase letter to code point `+32`. -/
theorem toLower_upper_toNat {c : Char} (h : isUpperCh c = true) :
    (Char.toLower c).toNat = c.toNat + 32 := by
  have hn := isUpperCh_toNat h
  unfold Char.toLower
  rw [if_pos (by omega), char_toNat_ofNat _ (by omega)]

/-- The code point of the lowercase image of an uppercase letter or digit
lies in `[48, 57] ∪ [97, 122]`. -/
theorem toLower_toNat_range {c : Char}
    (h : isUpperCh c = true ∨ isDigitCh c = true) :
    (48 ≤ (Char.toLower c).toNat ∧ (Char.toLower c).toNat ≤ 57) ∨
      (97 ≤ (Char.toLower c).toNat ∧ (Char.toLower c).toNat ≤ 122) := by
  rcases h with h | h
  · right
    have := isUpperCh_toNat h
    rw [toLower_upper_toNat h]
    omega
  · left
    rw [toLower_fixed_digit h]
    exact isDigitCh_toNat h

/-- Uppercase letters and digits are not stripped/`\s` whitespace. -/
theorem isPySpace_false {c : Char}
    (h : isUpperCh c = true ∨ isDigitCh c = true) : isPySpace c = false := by
  have hn : 48 ≤ c.toNat := by
    rcases h with h | h
    · have := (isUpperCh_toNat h).1; omega
    · exact (isDigitCh_toNat h).1
  unfold isPySpace
  have hne : ∀ d : Char, d.toNat < 48 → decide (c = d) = false := by
    intro d hd
    exact decide_eq_false (char_ne_of_toNat_ne (by omega))
  rw [hne ' ' (by decide), hne '\t' (by decide), hne '\n' (by decide),
    hne '\r' (by decide), hne '\x0B' (by decide), hne '\x0C' (by decide)]
  rfl

theorem charClassAt_upper_or_digit {i : Nat} {c : Char}
    (h : charClassAt i c = true) :
    isUpperCh c = true ∨ isDigitCh c = true := by
  unfold charClassAt at h
  split at h
  · exact Or.inl h
  split at h
  · exact Or.inr h
  split at h
  · rw [Bool.or_eq_true, decide_eq_true_eq, decide_eq_true_eq] at h
    rcases h with rfl | rfl
    · exact Or.inl (by decide)
    · exact Or.inl (by decide)
  split at h
  · exact Or.inl h
  split at h
  · rw [Bool.or_eq_true] at h
    rcases h with h | h
    · exact Or.inr h
    · exact Or.inl h
  · exact Or.inr h

theorem curpShape_length {l : List Char} (h : curpShape l = true) :
    l.length = 18 := by
  unfold curpShape at h
  rw [Bool.and_eq_true, decide_eq_true_eq] at h
  exact h.1

theorem curpShape_classAt {l : List Char} (h : curpShape l = true) :
    ∀ i < 18, charClassAt i (l.getD i ' ') = true := by
  unfold curpShape at h
  rw [Bool.and_eq_true] at h
  have := List.all_eq_true.mp h.2
  intro i hi
  exact this i (List.mem_range.mpr hi)

theorem curpShape_chars {l : List Char} (h : curpShape l = true) :
    ∀ c ∈ l, isUpperCh c = true ∨ isDigitCh c = true := by
  intro c hc
  obtain ⟨i, hi, rfl⟩ := List.mem_iff_getElem.mp hc
  have hlen := curpShape_length h
  have hcl := curpShape_classAt h i (by omega)
  rw [List.getD_eq_getElem _ _ hi] at hcl
  exact charClassAt_upper_or_digit hcl

/-! ## Strip/upper/substring lemmas -/

theorem dropWhile_id_of_false {p : Char → Bool} {l : List Char}
    (h : ∀ c ∈ l, p c = false) : l.dropWhile p = l := by
  cases l with
  | nil => rfl
  | cons c cs =>
    rw [List.dropWhile_cons, h c (List.mem_cons_self c cs)]
    rfl

theorem pyStrip_id {l : List Char}
    (h : ∀ c ∈ l, isPySpace c = false) : pyStrip l = l := by
  unfold pyStrip
  rw [dropWhile_id_of_false h,
    dropWhile_id_of_false (fun c hc => h c (List.mem_reverse.mp hc)),
    List.reverse_reverse]

theorem map_id_of_fixed {f : Char → Char} {l : List Char}
    (h : ∀ c ∈ l, f c = c) : l.map f = l := by
  induction l with
  | nil => rfl
  | cons c cs ih =>
    rw [List.map_cons, h c (List.mem_cons_self c cs),
      ih (fun x hx => h x (List.mem_cons_of_mem c hx))]

theorem pyUpper_id {l : List Char}
    (h : ∀ c ∈ l, isUpperCh c = true ∨ isDigitCh c = true) :
    pyUpper l = l :=
  map_id_of_fixed (fun c hc => toUpper_fixed (h c hc))

theorem string_mk_toList (s : String) : String.mk s.toList = s := by
  cases s
  rfl

theorem hasSub_decomp {n h : List Char} (hh : hasSub n h = true) :
    ∃ pre post, h = pre ++ n ++ post := by
  induction h with
  | nil =>
    unfold hasSub at hh
    rw [List.isEmpty_iff] at hh
    exact ⟨[], [], by rw [hh]; rfl⟩
  | cons c cs ih =>
    unfold hasSub at hh
    rw [Bool.or_eq_true] at hh
    rcases hh with hh | hh
    · obtain ⟨t, ht⟩ := List.isPrefixOf_iff_prefix.mp hh
      exact ⟨[], t, by rw [← ht]; rfl⟩
    · obtain ⟨pre, post, hp⟩ := ih hh
      exact ⟨c :: pre, post, by simp [hp, List.append_assoc]⟩

theorem hasSub_length {n h : List Char} (hh : hasSub n h = true) :
    n.length ≤ h.length := by
  obtain ⟨pre, post, rfl⟩ := hasSub_decomp hh
  simp only [List.length_append]
  omega

theorem hasSub_subset {n h : List Char} (hh : hasSub n h = true) :
    ∀ c ∈ n, c ∈ h := by
  obtain ⟨pre, post, rfl⟩ := hasSub_decomp hh
  intro c hc
  simp only [List.append_assoc, List.mem_append]
  exact Or.inr (Or.inl hc)

/-! ## The anchored findall collapses to a single position -/

theorem curpMatchAt_pos_false (l : List Char) (p : Nat) :
    curpMatchAt l (p + 1) = false := by
  unfold curpMatchAt
  rw [decide_eq_false (by omega : ¬ (p + 1 = 0))]
  rfl

theorem findallCURP_eq (l : List Char) :
    findallCURP l = if curpMatchAt l 0 = true then [l.take 18] else [] := by
  unfold findallCURP
  rw [List.range_succ_eq_map, List.filterMap_cons]
  have htail : List.filterMap
      (fun p => if curpMatchAt l p = true then some ((l.drop p).take 18)
        else none)
      (List.map Nat.succ (List.range l.length)) = [] := by
    rw [List.filterMap_map, List.filterMap_eq_nil_iff]
    intro a _
    simp only [Function.comp_apply]
    rw [if_neg (by rw [curpMatchAt_pos_false]; exact Bool.false_ne_true)]
  by_cases h : curpMatchAt l 0 = true
  · rw [if_pos h, if_pos h, htail, List.drop_zero]
  · rw [if_neg h, if_neg h, htail]

theorem extract_curp_eq (text : String) :
    extract_curp_from_text text =
      if curpMatchAt (pyUpper text.toList) 0 = true then
        some (String.mk ((pyUpper text.toList).take 18))
      else none := by
  unfold extract_curp_from_text
  by_cases he : text.isEmpty
  · rw [if_pos he]
    have h0 : text = "" := (String.isEmpty_iff text).mp he
    subst h0
    rw [if_neg (by decide)]
  · rw [if_neg he, findallCURP_eq]
    by_cases h : curpMatchAt (pyUpper text.toList) 0 = true
    · rw [if_pos h, if_pos h]
      rfl
    · rw [if_neg h, if_neg h]
      rfl

theorem curpMatchAt_zero_iff (l : List Char) :
    curpMatchAt l 0 = true ↔
      (curpShape l = true ∨
        (l.getLast? = some '\n' ∧ curpShape l.dropLast = true)) := by
  unfold curpMatchAt dollarAt
  simp only [List.drop_zero, Nat.zero_add, Bool.and_eq_true, Bool.or_eq_true,
    decide_eq_true_eq, eq_self_iff_true, true_and]
  constructor
  · rintro ⟨hsh, hd | ⟨hlen, hc⟩⟩
    · left
      rwa [List.take_of_length_le (by omega)] at hsh
    · right
      have hlen' : l.length = 19 := hlen.symm
      constructor
      · have h1 : l.getLast? = l[18]? := by
          rw [List.getLast?_eq_getElem?, hlen']
        have h2 : l[18]? = some (l.getD 18 ' ') := by
          rw [List.getD_eq_getElem _ _ (by omega),
            List.getElem?_eq_getElem (by omega)]
        rw [h1, h2, hc]
      · rw [List.dropLast_eq_take, hlen']
        exact hsh
  · rintro (hsh | ⟨hlast, hsh⟩)
    · have hlen := curpShape_length hsh
      refine ⟨?_, Or.inl hlen.symm⟩
      rwa [List.take_of_length_le (by omega)]
    · have hdl := curpShape_length hsh
      rw [List.length_dropLast] at hdl
      have hlpos : l ≠ [] := by
        intro he
        subst he
        simp at hlast
      have hlen : l.length = 19 := by
        have := List.length_pos.mpr hlpos
        omega
      have htake : l.take 18 = l.dropLast := by
        rw [List.dropLast_eq_take, hlen]
      refine ⟨by rwa [htake], Or.inr ⟨hlen.symm, ?_⟩⟩
      have h1 : l.getLast? = l[18]? := by
        rw [List.getLast?_eq_getElem?, hlen]
      rw [h1, List.getElem?_eq_getElem (by omega)] at hlast
      rw [List.getD_eq_getElem _ _ (by omega)]
      exact Option.some.inj hlast

/-- C10 amended: `extract_curp_from_text` returns a CURP for an input text
if and only if the entire uppercased text — up to one trailing newline,
which Python's `$` anchor tolerates — is itself a single 18-character
pattern match; the returned CURP is then those 18 characters.  In
particular, for every text containing a pattern-valid identifier as a
proper substring in any other way (such as a full HTML page), it returns
`None`, so `validate_result`'s text fallback cannot find an identifier
embedded in larger content. -/
theorem c10_extract_iff (text : String) :
    ((extract_curp_from_text text).isSome = true ↔
      (curpShape (pyUpper text.toList) = true ∨
        ((pyUpper text.toList).getLast? = some '\n' ∧
          curpShape ((pyUpper text.toList).dropLast) = true))) ∧
    (∀ c, extract_curp_from_text text = some c →
      c = String.mk ((pyUpper text.toList).take 18)) := by
  constructor
  · rw [extract_curp_eq]
    by_cases h : curpMatchAt (pyUpper text.toList) 0 = true
    · rw [if_pos h]
      simp only [Option.isSome_some, true_iff]
      exact (curpMatchAt_zero_iff _).mp h
    · rw [if_neg h]
      simp only [Option.isSome_none, Bool.false_eq_true, false_iff]
      intro hcontra
      exact h ((curpMatchAt_zero_iff _).mpr hcontra)
  · intro c hc
    rw [extract_curp_eq] at hc
    by_cases h : curpMatchAt (pyUpper text.toList) 0 = true
    · rw [if_pos h] at hc
      exact (Option.some.inj hc).symm
    · rw [if_neg h] at hc
      exact absurd hc (by simp)

/-- Witness for C10 (amended) at the trailing-newline text: the returned
CURP is the first 18 characters of the uppercased text. -/
theorem c10_extract_iff_witness :
    extract_curp_from_text "ABCD900101HDFXYZ01\n" =
      some (String.mk ((pyUpper "ABCD900101HDFXYZ01\n".toList).take 18)) := by
  have h := (c10_extract_iff "ABCD900101HDFXYZ01\n").2 "ABCD900101HDFXYZ01"
    (by decide)
  rw [← h]
  decide

/-! ## No-match indicators cannot occur inside a bare CURP -/

theorem pyLower_length (l : List Char) : (pyLower l).length = l.length := by
  simp [pyLower]

theorem warning_not_sub {l : List Char} (hs : curpShape l = true) :
    hasSub ("warningmenssage".toList) (pyLower l) = false := by
  by_contra hcon
  rw [Bool.not_eq_false] at hcon
  obtain ⟨pre, post, hdecomp⟩ := hasSub_decomp hcon
  have hlen := curpShape_length hs
  have hlow : (pyLower l).length = 18 := by rw [pyLower_length, hlen]
  have hw : ("warningmenssage".toList).length = 15 := by decide
  have hpre : pre.length ≤ 3 := by
    have hlens := congrArg List.length hdecomp
    simp only [List.length_append, hw, hlow] at hlens
    omega
  -- position 4 of the lowered CURP is a digit
  have h4lt : 4 < l.length := by omega
  have hc4 : isDigitCh (l[4]) = true := by
    have := curpShape_classAt hs 4 (by omega)
    rw [List.getD_eq_getElem _ _ h4lt] at this
    unfold charClassAt at this
    rw [if_neg (by omega), if_pos (by omega)] at this
    exact this
  have hlow4 : (pyLower l)[4]? = some (l[4]) := by
    unfold pyLower
    rw [List.getElem?_map, List.getElem?_eq_getElem h4lt]
    simp [toLower_fixed_digit hc4]
  -- the same position falls inside the needle, whose characters are all
  -- lowercase letters
  have hj : 4 - pre.length < 15 := by omega
  have hdec4 : (pyLower l)[4]? =
      some (("warningmenssage".toList).getD (4 - pre.length) ' ') := by
    rw [hdecomp]
    rw [List.getElem?_append_left
        (by rw [List.length_append, hw]; omega :
          4 < (pre ++ "warningmenssage".toList).length),
      List.getElem?_append_right (by omega : pre.length ≤ 4)]
    rw [List.getD_eq_getElem _ _ (by omega),
      List.getElem?_eq_getElem (by omega)]
  have hwchars : ∀ j, j < 15 →
      97 ≤ (("warningmenssage".toList).getD j ' ').toNat := by decide
  rw [hlow4] at hdec4
  have heq := Option.some.inj hdec4
  have hge := hwchars (4 - pre.length) hj
  rw [← heq] at hge
  have hle := (isDigitCh_toNat hc4).2
  omega

theorem no_indicator_of_shape {l : List Char} (hs : curpShape l = true) :
    NO_MATCH_INDICATORS.any (fun ind => hasSub ind (pyLower l)) = false := by
  have hlen := curpShape_length hs
  have hlow : (pyLower l).length = 18 := by rw [pyLower_length, hlen]
  rw [List.any_eq_false]
  intro ind hind
  unfold NO_MATCH_INDICATORS at hind
  simp only [List.mem_cons, List.not_mem_nil, or_false] at hind
  rcases hind with rfl | rfl | rfl | rfl
  · intro hcon
    have hl := hasSub_length hcon
    rw [hlow] at hl
    exact absurd hl (by decide)
  · intro hcon
    have hsp : ' ' ∈ pyLower l := hasSub_subset hcon ' ' (by decide)
    obtain ⟨c, hc, hlc⟩ := List.mem_map.mp hsp
    have hr := toLower_toNat_range (curpShape_chars hs c hc)
    rw [hlc] at hr
    exact absurd hr (by decide)
  · intro hcon
    rw [warning_not_sub hs] at hcon
    exact Bool.false_ne_true hcon
  · intro hcon
    have hl := hasSub_length hcon
    rw [hlow] at hl
    exact absurd hl (by decide)

/-! ## The table patterns need a literal angle bracket -/

theorem litMatch_head_none {ps l : List Char} {p : Char}
    (h : ∀ c ∈ l, Char.toLower c ≠ p) : litMatch (p :: ps) l = none := by
  cases l with
  | nil => rfl
  | cons c cs =>
    unfold litMatch
    rw [if_neg (h c (List.mem_cons_self c cs))]

theorem toLower_ne_lt_bracket {c : Char}
    (h : isUpperCh c = true ∨ isDigitCh c = true) :
    Char.toLower c ≠ '<' := by
  have hr := toLower_toNat_range h
  apply char_ne_of_toNat_ne
  have h60 : ('<').toNat = 60 := rfl
  rw [h60]
  omega

theorem tryRowAt_none {lm tl : List Char → Option (List Char)}
    {l : List Char} (h : ∀ c ∈ l, Char.toLower c ≠ '<') :
    tryRowAt lm tl l = none := by
  unfold tryRowAt
  have h1 : litMatch ("<td".toList) l = none := by
    have he : "<td".toList = '<' :: ['t', 'd'] := rfl
    rw [he]
    exact litMatch_head_none h
  rw [h1]

theorem searchRow_none {lm tl : List Char → Option (List Char)}
    {l : List Char} (h : ∀ c ∈ l, Char.toLower c ≠ '<') :
    searchRow (tryRowAt lm tl) l = none := by
  induction l with
  | nil =>
    unfold searchRow
    exact tryRowAt_none (fun c hc => absurd hc (List.not_mem_nil c))
  | cons c cs ih =>
    unfold searchRow
    rw [tryRowAt_none h, ih (fun x hx => h x (List.mem_cons_of_mem c hx))]

/-! ## Shape strings pass `is_valid_curp` unchanged -/

theorem clean_eq_of_shape {s : String} (hs : curpShape s.toList = true) :
    pyUpper (pyStrip s.toList) = s.toList := by
  have hchars := curpShape_chars hs
  rw [pyStrip_id (fun c hc => isPySpace_false (hchars c hc))]
  exact pyUpper_id hchars

theorem isEmpty_false_of_shape {s : String} (hs : curpShape s.toList = true) :
    ¬ s.isEmpty = true := by
  intro hcon
  have he := (String.isEmpty_iff s).mp hcon
  subst he
  exact absurd (curpShape_length hs) (by decide)

theorem is_valid_of_shape {s : String} (hs : curpShape s.toList = true) :
    is_valid_curp s = true := by
  unfold is_valid_curp
  rw [if_neg (isEmpty_false_of_shape hs)]
  show ((pyUpper (pyStrip s.toList)).length = 18 &&
    curpShape (pyUpper (pyStrip s.toList))) = true
  rw [clean_eq_of_shape hs, Bool.and_eq_true, decide_eq_true_eq]
  exact ⟨curpShape_length hs, hs⟩

theorem extract_date_none_of_invalid {s : String}
    (hs : curpShape s.toList = true)
    (hdate : validDate
        (fullYearOfTwoDigit
          (digit2 (s.toList.getD 4 '0') (s.toList.getD 5 '0')))
        (digit2 (s.toList.getD 6 '0') (s.toList.getD 7 '0'))
        (digit2 (s.toList.getD 8 '0') (s.toList.getD 9 '0')) = false) :
    extract_date_from_curp s = none := by
  unfold extract_date_from_curp
  rw [if_pos (is_valid_of_shape hs)]
  show (if validDate
      (fullYearOfTwoDigit
        (digit2 ((pyUpper (pyStrip s.toList)).getD 4 '0')
          ((pyUpper (pyStrip s.toList)).getD 5 '0')))
      (digit2 ((pyUpper (pyStrip s.toList)).getD 6 '0')
        ((pyUpper (pyStrip s.toList)).getD 7 '0'))
      (digit2 ((pyUpper (pyStrip s.toList)).getD 8 '0')
        ((pyUpper (pyStrip s.toList)).getD 9 '0')) = true then
    some (fmtDate
      (fullYearOfTwoDigit
        (digit2 ((pyUpper (pyStrip s.toList)).getD 4 '0')
          ((pyUpper (pyStrip s.toList)).getD 5 '0')))
      (digit2 ((pyUpper (pyStrip s.toList)).getD 6 '0')
        ((pyUpper (pyStrip s.toList)).getD 7 '0'))
      (digit2 ((pyUpper (pyStrip s.toList)).getD 8 '0')
        ((pyUpper (pyStrip s.toList)).getD 9 '0')))
    else none) = none
  rw [clean_eq_of_shape hs, hdate]
  rfl

/-- C6 amended: an 18-character identifier that matches the CURP pattern
but whose embedded month/day digits do not form a valid calendar date is
NOT rejected by `validate_result`: presented as the whole content, it is
accepted with `found = true` and `valid = true` (via the text fallback,
since it contains no markup and no no-match indicator); the invalid date
surfaces only as `birth_date = None`. -/
theorem c6_accepts_invalid_date (s : String)
    (hs : curpShape s.toList = true)
    (hdate : validDate
        (fullYearOfTwoDigit
          (digit2 (s.toList.getD 4 '0') (s.toList.getD 5 '0')))
        (digit2 (s.toList.getD 6 '0') (s.toList.getD 7 '0'))
        (digit2 (s.toList.getD 8 '0') (s.toList.getD 9 '0')) = false) :
    validate_result s =
      { valid := true, curp := some s, birth_date := none,
        state_code := extract_state_code_from_curp s,
        found := true, state_name := none } := by
  have hlen := curpShape_length hs
  have hchars := curpShape_chars hs
  unfold validate_result
  rw [if_neg (isEmpty_false_of_shape hs),
    if_neg (by rw [no_indicator_of_shape hs]; exact Bool.false_ne_true)]
  have htable : tableBranch s.toList = none := by
    unfold tableBranch
    unfold searchCurpRow
    rw [searchRow_none (fun c hc => toLower_ne_lt_bracket (hchars c hc))]
  rw [htable]
  unfold fallbackBranch
  have hup : pyUpper s.toList = s.toList := pyUpper_id hchars
  have hext : extract_curp_from_text s = some s := by
    rw [extract_curp_eq, hup,
      if_pos ((curpMatchAt_zero_iff _).mpr (Or.inl hs)),
      List.take_of_length_le (by omega), string_mk_toList]
  rw [hext]
  show (if is_valid_curp s = true then
      ({ valid := true, curp := some s,
         birth_date := extract_date_from_curp s,
         state_code := extract_state_code_from_curp s,
         found := true, state_name := none } : ValidationResult)
    else emptyResult) =
    { valid := true, curp := some s, birth_date := none,
      state_code := extract_state_code_from_curp s,
      found := true, state_name := none }
  rw [if_pos (is_valid_of_shape hs),
    extract_date_none_of_invalid hs hdate]

/-- Witness for C6 (amended) at the month-13 identifier. -/
theorem c6_accepts_invalid_date_witness :
    curpShape ("ABCD051301HDFGHI01".toList) = true ∧
    validDate
        (fullYearOfTwoDigit
          (digit2 ("ABCD051301HDFGHI01".toList.getD 4 '0')
            ("ABCD051301HDFGHI01".toList.getD 5 '0')))
        (digit2 ("ABCD051301HDFGHI01".toList.getD 6 '0')
          ("ABCD051301HDFGHI01".toList.getD 7 '0'))
        (digit2 ("ABCD051301HDFGHI01".toList.getD 8 '0')
          ("ABCD051301HDFGHI01".toList.getD 9 '0')) = false ∧
    validate_result "ABCD051301HDFGHI01" =
      { valid := true, curp := some "ABCD051301HDFGHI01",
        birth_date := none,
        state_code := extract_state_code_from_curp "ABCD051301HDFGHI01",
        found := true, state_name := none } :=
  ⟨by decide, by decide,
   c6_accepts_invalid_date "ABCD051301HDFGHI01" (by decide) (by decide)⟩
